import Mathlib

/-!
Verification of the kindrahealth streaming consultation client.

The development shallowly embeds three parts of the repository:

* `src/schemas/consultationSummaryResponseSchema.ts` — the zod schemas.
  Each zod schema `XSchema` becomes a Lean function `XSchema : Json →
  Except (List Issue) Json` modelling `XSchema.safeParse` on a decoded
  JSON value: success returns the validated output value (unknown object
  keys stripped, as zod object schemas do in their default strip mode),
  failure returns the collected list of field-level issues.  Like zod,
  object parsing visits every declared field and concatenates the issues
  of all failing fields instead of stopping at the first one.
* `src/utils/formatters.ts` — the three pure document formatters; the two
  used by the claims are translated statement by statement.
* the `onmessage` handler and the start of `handleSubmit` in the product
  page — modelled as a step function `onMessage` over the component state
  that the handler mutates (chunk buffer, structured output, loading
  flag, last alert text) and a `startSession` function for the JWT guard.
-/

/-- A decoded JSON value, as produced by a successful `JSON.parse`.
Numbers are kept as integers; no claim exercises numeric payloads. -/
inductive Json where
  | null
  | bool (b : Bool)
  | num (n : Int)
  | str (s : String)
  | arr (elems : List Json)
  | obj (fields : List (String × Json))

/-- One step of a zod issue path: an object key or an array index. -/
inductive PathSeg where
  | key (k : String)
  | idx (n : Nat)
deriving DecidableEq, Repr

/-- One zod validation issue: the path of the offending field and an
issue code naming the expected shape. -/
structure Issue where
  path : List PathSeg
  code : String
deriving DecidableEq, Repr

/-- Look a key up in a decoded object; JS objects have unique keys, so
the first match is the value. -/
def fieldAt (k : String) : List (String × Json) → Option Json
  | [] => none
  | (k', v) :: rest => if k' = k then some v else fieldAt k rest

/-- JS property access `j[k]` on a decoded value: `none` is `undefined`. -/
def getField (j : Json) (k : String) : Option Json :=
  match j with
  | .obj fs => fieldAt k fs
  | _ => none

/-- Boolean key membership, matching the decidable-equality style of
`fieldAt`. -/
def keyMem (k : String) : List String → Bool
  | [] => false
  | a :: as => if a = k then true else keyMem k as

/-- The errors of a parse result; `[]` on success. -/
def errsOf : Except (List Issue) α → List Issue
  | .ok _ => []
  | .error is => is

/-- Run two independent parses, pairing the results and concatenating the
issue lists — zod object/array parsing does not short-circuit. -/
def combine2 : Except (List Issue) α → Except (List Issue) β → Except (List Issue) (α × β)
  | .ok a, .ok b => .ok (a, b)
  | .error e, .ok _ => .error e
  | .ok _, .error e => .error e
  | .error e, .error f => .error (e ++ f)

/-- Re-root the issues of a sub-parse under an object key. -/
def inKey (k : String) : Except (List Issue) α → Except (List Issue) α
  | .ok a => .ok a
  | .error is => .error (is.map fun i => ⟨.key k :: i.path, i.code⟩)

/-- Re-root the issues of a sub-parse under an array index. -/
def inIdx (n : Nat) : Except (List Issue) α → Except (List Issue) α
  | .ok a => .ok a
  | .error is => .error (is.map fun i => ⟨.idx n :: i.path, i.code⟩)

/-- The entry list a parsed optional field contributes to the rebuilt
object: nothing when the field was absent, one entry otherwise. -/
def optEnt (k : String) : Option Json → List (String × Json)
  | none => []
  | some v => [(k, v)]

/-- A required object field: absent is a one-issue failure (zod reports
`invalid_type` received `undefined`); otherwise the inner schema runs and
its issues are re-rooted under the key. -/
def reqField (k : String) (p : Json → Except (List Issue) Json)
    (fs : List (String × Json)) : Except (List Issue) Json :=
  match fieldAt k fs with
  | none => .error [⟨[.key k], "required"⟩]
  | some v => inKey k (p v)

/-- An `.optional().nullable()` object field: absent keys are skipped
(and stay absent in the output), `null` passes through, any other value
runs the inner schema. -/
def optField (k : String) (p : Json → Except (List Issue) Json)
    (fs : List (String × Json)) : Except (List Issue) (Option Json) :=
  match fieldAt k fs with
  | none => .ok none
  | some .null => .ok (some .null)
  | some v => (inKey k (p v)).map some

/-- `z.string()`. -/
def parseString : Json → Except (List Issue) Json
  | .str s => .ok (.str s)
  | _ => .error [⟨[], "invalid_type_string"⟩]

/-- `z.enum(allowed)`: an exact, case-sensitive string match against the
closed set. -/
def parseEnum (allowed : List String) : Json → Except (List Issue) Json
  | .str s => if allowed.contains s then .ok (.str s) else .error [⟨[], "invalid_enum_value"⟩]
  | _ => .error [⟨[], "invalid_enum_value"⟩]

/-- Element-wise array parsing starting at index `n`, collecting the
issues of every failing element. -/
def parseList (p : Json → Except (List Issue) Json) : Nat → List Json → Except (List Issue) (List Json)
  | _, [] => .ok []
  | n, v :: vs => (combine2 (inIdx n (p v)) (parseList p (n + 1) vs)).map fun pr => pr.1 :: pr.2

/-- `z.array(p)`. -/
def parseArray (p : Json → Except (List Issue) Json) : Json → Except (List Issue) Json
  | .arr vs => (parseList p 0 vs).map .arr
  | _ => .error [⟨[], "invalid_type_array"⟩]

/-- `PhysicalExamFindingSchema` from the schema module. -/
def PhysicalExamFindingSchema : Json → Except (List Issue) Json
  | .obj fs =>
      (combine2 (reqField "body_part" parseString fs)
                (reqField "finding" parseString fs)).map fun t =>
        .obj [("body_part", t.1), ("finding", t.2)]
  | _ => .error [⟨[], "invalid_type_object"⟩]

/-- `AssessmentSchema` from the schema module. -/
def AssessmentSchema : Json → Except (List Issue) Json
  | .obj fs =>
      (combine2 (reqField "diagnosis" parseString fs)
        (combine2 (optField "icd_code" parseString fs)
                  (optField "severity" (parseEnum ["mild", "moderate", "severe"]) fs))).map fun t =>
        .obj ([("diagnosis", t.1)] ++ optEnt "icd_code" t.2.1 ++ optEnt "severity" t.2.2)
  | _ => .error [⟨[], "invalid_type_object"⟩]

/-- `ClinicalSummarySchema` from the schema module. -/
def ClinicalSummarySchema : Json → Except (List Issue) Json
  | .obj fs =>
      (combine2 (reqField "patient_name" parseString fs)
        (combine2 (reqField "visit_date" parseString fs)
        (combine2 (reqField "chief_complaint" parseString fs)
        (combine2 (reqField "history_of_present_illness" parseString fs)
        (combine2 (optField "vital_signs" parseString fs)
        (combine2 (reqField "physical_exam_findings" (parseArray PhysicalExamFindingSchema) fs)
        (combine2 (reqField "assessments" (parseArray AssessmentSchema) fs)
                  (optField "additional_notes" parseString fs)))))))).map fun t =>
        .obj ([("patient_name", t.1), ("visit_date", t.2.1), ("chief_complaint", t.2.2.1),
               ("history_of_present_illness", t.2.2.2.1)]
              ++ optEnt "vital_signs" t.2.2.2.2.1
              ++ [("physical_exam_findings", t.2.2.2.2.2.1), ("assessments", t.2.2.2.2.2.2.1)]
              ++ optEnt "additional_notes" t.2.2.2.2.2.2.2)
  | _ => .error [⟨[], "invalid_type_object"⟩]

/-- `PatientInstructionSchema` from the schema module. -/
def PatientInstructionSchema : Json → Except (List Issue) Json
  | .obj fs =>
      (combine2 (reqField "instruction" parseString fs)
                (reqField "category" parseString fs)).map fun t =>
        .obj [("instruction", t.1), ("category", t.2)]
  | _ => .error [⟨[], "invalid_type_object"⟩]

/-- `PatientFollowUpEmailSchema` from the schema module. -/
def PatientFollowUpEmailSchema : Json → Except (List Issue) Json
  | .obj fs =>
      (combine2 (reqField "greeting" parseString fs)
        (combine2 (reqField "summary_of_findings" parseString fs)
        (combine2 (reqField "treatment_plan" parseString fs)
        (combine2 (reqField "patient_instructions" (parseArray PatientInstructionSchema) fs)
        (combine2 (reqField "warning_signs" (parseArray parseString) fs)
        (combine2 (reqField "next_steps_timeline" parseString fs)
        (combine2 (reqField "closing" parseString fs)
                  (reqField "physician_signature" parseString fs)))))))).map fun t =>
        .obj [("greeting", t.1), ("summary_of_findings", t.2.1), ("treatment_plan", t.2.2.1),
              ("patient_instructions", t.2.2.2.1), ("warning_signs", t.2.2.2.2.1),
              ("next_steps_timeline", t.2.2.2.2.2.1), ("closing", t.2.2.2.2.2.2.1),
              ("physician_signature", t.2.2.2.2.2.2.2)]
  | _ => .error [⟨[], "invalid_type_object"⟩]

/-- `NextStepActionSchema` from the schema module. -/
def NextStepActionSchema : Json → Except (List Issue) Json
  | .obj fs =>
      (combine2 (reqField "action_type"
          (parseEnum ["diagnostic", "treatment", "referral", "follow-up", "education"]) fs)
        (combine2 (reqField "description" parseString fs)
        (combine2 (optField "priority" (parseEnum ["high", "medium", "low"]) fs)
                  (optField "timeline" parseString fs)))).map fun t =>
        .obj ([("action_type", t.1), ("description", t.2.1)]
              ++ optEnt "priority" t.2.2.1 ++ optEnt "timeline" t.2.2.2)
  | _ => .error [⟨[], "invalid_type_object"⟩]

/-- `NextStepsSchema` from the schema module. -/
def NextStepsSchema : Json → Except (List Issue) Json
  | .obj fs =>
      (combine2 (reqField "actions" (parseArray NextStepActionSchema) fs)
        (combine2 (optField "follow_up_appointment" parseString fs)
                  (optField "red_flags" (parseArray parseString) fs))).map fun t =>
        .obj ([("actions", t.1)] ++ optEnt "follow_up_appointment" t.2.1
              ++ optEnt "red_flags" t.2.2)
  | _ => .error [⟨[], "invalid_type_object"⟩]

/-- `ConsultationSummaryResponseSchema` from the schema module. -/
def ConsultationSummaryResponseSchema : Json → Except (List Issue) Json
  | .obj fs =>
      (combine2 (reqField "clinical_summary" ClinicalSummarySchema fs)
        (combine2 (reqField "next_steps" NextStepsSchema fs)
        (combine2 (reqField "patient_email" PatientFollowUpEmailSchema fs)
        (combine2 (reqField "generation_timestamp" parseString fs)
                  (optField "model_version" parseString fs))))).map fun t =>
        .obj ([("clinical_summary", t.1), ("next_steps", t.2.1), ("patient_email", t.2.2.1),
               ("generation_timestamp", t.2.2.2.1)]
              ++ optEnt "model_version" t.2.2.2.2)
  | _ => .error [⟨[], "invalid_type_object"⟩]

/-- `safeParse` applied to `parsed.data`, which may be `undefined` when
the `complete` envelope carries no `data` key. -/
def safeParseData : Option Json → Except (List Issue) Json
  | none => .error [⟨[], "invalid_type_object"⟩]
  | some v => ConsultationSummaryResponseSchema v

/-- Every key of `fs` occurs among the keys of `gs`. -/
def keysIncl (fs gs : List (String × Json)) : Bool :=
  fs.all fun e => (fieldAt e.1 gs).isSome

mutual
/-- JSON deep equality, the notion used by "deep-equal to the input
payload": scalars compare by value, arrays element-wise in order, and
objects as finite maps — every entry of the left object must match the
right object at the same key, and the two key sets must coincide. -/
def deepEq : Json → Json → Bool
  | .null, .null => true
  | .bool a, .bool b => a == b
  | .num a, .num b => a == b
  | .str a, .str b => a == b
  | .arr xs, .arr ys => deepEqList xs ys
  | .obj fs, .obj gs => fieldsIncl fs gs && keysIncl gs fs
  | _, _ => false

/-- Element-wise deep equality of two JSON arrays. -/
def deepEqList : List Json → List Json → Bool
  | [], [] => true
  | x :: xs, y :: ys => deepEq x y && deepEqList xs ys
  | _, _ => false

/-- Every entry of `fs` deep-equals the value at the same key in `gs`. -/
def fieldsIncl : List (String × Json) → List (String × Json) → Bool
  | [], _ => true
  | (k, v) :: fs, gs =>
      (match fieldAt k gs with
       | some w => deepEq v w
       | none => false) && fieldsIncl fs gs
end

/-! ### Shape predicates, following the wording of the data-model section
of the specification.  `XShape` states that every required field of `X`
is present with the right primitive type, enumerated fields are drawn
from their closed lower-case sets, declared arrays are present, and
optional fields, when present, are well typed; it says nothing about
additional unrecognized keys.  `XNoExtra` states that no object in the
payload tree carries a key outside the declared set of its schema. -/

/-- The field holds a string. -/
def isStrAt (fs : List (String × Json)) (k : String) : Bool :=
  match fieldAt k fs with
  | some (.str _) => true
  | _ => false

/-- The field is absent, `null`, or a string. -/
def isOptNullStrAt (fs : List (String × Json)) (k : String) : Bool :=
  match fieldAt k fs with
  | none => true
  | some .null => true
  | some (.str _) => true
  | _ => false

/-- The field holds one of the closed set of enumerated tokens. -/
def isEnumAt (fs : List (String × Json)) (k : String) (allowed : List String) : Bool :=
  match fieldAt k fs with
  | some (.str s) => allowed.contains s
  | _ => false

/-- The field is absent, `null`, or an enumerated token. -/
def isOptNullEnumAt (fs : List (String × Json)) (k : String) (allowed : List String) : Bool :=
  match fieldAt k fs with
  | none => true
  | some .null => true
  | some (.str s) => allowed.contains s
  | _ => false

/-- The value is a string. -/
def isStr : Json → Bool
  | .str _ => true
  | _ => false

/-- The field holds an array all of whose elements satisfy `p`. -/
def isArrAllAt (fs : List (String × Json)) (k : String) (p : Json → Bool) : Bool :=
  match fieldAt k fs with
  | some (.arr vs) => vs.all p
  | _ => false

/-- The field is absent, `null`, or an array of elements satisfying `p`. -/
def isOptNullArrAllAt (fs : List (String × Json)) (k : String) (p : Json → Bool) : Bool :=
  match fieldAt k fs with
  | none => true
  | some .null => true
  | some (.arr vs) => vs.all p
  | _ => false

/-- Shape of a physical-exam finding. -/
def PhysicalExamFindingShape : Json → Bool
  | .obj fs => isStrAt fs "body_part" && isStrAt fs "finding"
  | _ => false

/-- Shape of an assessment: diagnosis text, optional ICD code, optional
severity drawn from the closed lower-case set. -/
def AssessmentShape : Json → Bool
  | .obj fs => isStrAt fs "diagnosis" && isOptNullStrAt fs "icd_code"
      && isOptNullEnumAt fs "severity" ["mild", "moderate", "severe"]
  | _ => false

/-- Shape of a clinical summary per the data model. -/
def ClinicalSummaryShape : Json → Bool
  | .obj fs => isStrAt fs "patient_name" && isStrAt fs "visit_date"
      && isStrAt fs "chief_complaint" && isStrAt fs "history_of_present_illness"
      && isOptNullStrAt fs "vital_signs"
      && isArrAllAt fs "physical_exam_findings" PhysicalExamFindingShape
      && isArrAllAt fs "assessments" AssessmentShape
      && isOptNullStrAt fs "additional_notes"
  | _ => false

/-- Shape of a patient instruction. -/
def PatientInstructionShape : Json → Bool
  | .obj fs => isStrAt fs "instruction" && isStrAt fs "category"
  | _ => false

/-- Shape of the patient follow-up email. -/
def PatientFollowUpEmailShape : Json → Bool
  | .obj fs => isStrAt fs "greeting" && isStrAt fs "summary_of_findings"
      && isStrAt fs "treatment_plan"
      && isArrAllAt fs "patient_instructions" PatientInstructionShape
      && isArrAllAt fs "warning_signs" isStr
      && isStrAt fs "next_steps_timeline" && isStrAt fs "closing"
      && isStrAt fs "physician_signature"
  | _ => false

/-- Shape of a next-step action: closed action-type set, description,
optional priority from its closed set, optional timeline text. -/
def NextStepActionShape : Json → Bool
  | .obj fs => isEnumAt fs "action_type" ["diagnostic", "treatment", "referral", "follow-up", "education"]
      && isStrAt fs "description"
      && isOptNullEnumAt fs "priority" ["high", "medium", "low"]
      && isOptNullStrAt fs "timeline"
  | _ => false

/-- Shape of the next-steps plan. -/
def NextStepsShape : Json → Bool
  | .obj fs => isArrAllAt fs "actions" NextStepActionShape
      && isOptNullStrAt fs "follow_up_appointment"
      && isOptNullArrAllAt fs "red_flags" isStr
  | _ => false

/-- Shape of the full consultation summary response payload. -/
def ConsultationSummaryResponseShape : Json → Bool
  | .obj fs => (match fieldAt "clinical_summary" fs with
        | some v => ClinicalSummaryShape v
        | none => false)
      && (match fieldAt "next_steps" fs with
        | some v => NextStepsShape v
        | none => false)
      && (match fieldAt "patient_email" fs with
        | some v => PatientFollowUpEmailShape v
        | none => false)
      && isStrAt fs "generation_timestamp"
      && isOptNullStrAt fs "model_version"
  | _ => false

/-- The elements of an array-valued field all satisfy `p`; vacuous when
the field is not an array. -/
def noExtraArrAt (fs : List (String × Json)) (k : String) (p : Json → Bool) : Bool :=
  match fieldAt k fs with
  | some (.arr vs) => vs.all p
  | _ => true

/-- An object-valued field satisfies `p`; vacuous when absent. -/
def noExtraObjAt (fs : List (String × Json)) (k : String) (p : Json → Bool) : Bool :=
  match fieldAt k fs with
  | some v => p v
  | none => true

/-- No unrecognized keys in a physical-exam finding. -/
def PhysicalExamFindingNoExtra : Json → Bool
  | .obj fs => fs.all fun e => keyMem e.1 ["body_part", "finding"]
  | _ => true

/-- No unrecognized keys in an assessment. -/
def AssessmentNoExtra : Json → Bool
  | .obj fs => fs.all fun e => keyMem e.1 ["diagnosis", "icd_code", "severity"]
  | _ => true

/-- No unrecognized keys anywhere in a clinical summary. -/
def ClinicalSummaryNoExtra : Json → Bool
  | .obj fs => (fs.all fun e => keyMem e.1 ["patient_name", "visit_date", "chief_complaint",
        "history_of_present_illness", "vital_signs", "physical_exam_findings",
        "assessments", "additional_notes"])
      && noExtraArrAt fs "physical_exam_findings" PhysicalExamFindingNoExtra
      && noExtraArrAt fs "assessments" AssessmentNoExtra
  | _ => true

/-- No unrecognized keys in a patient instruction. -/
def PatientInstructionNoExtra : Json → Bool
  | .obj fs => fs.all fun e => keyMem e.1 ["instruction", "category"]
  | _ => true

/-- No unrecognized keys anywhere in the patient email. -/
def PatientFollowUpEmailNoExtra : Json → Bool
  | .obj fs => (fs.all fun e => keyMem e.1 ["greeting", "summary_of_findings", "treatment_plan",
        "patient_instructions", "warning_signs", "next_steps_timeline", "closing",
        "physician_signature"])
      && noExtraArrAt fs "patient_instructions" PatientInstructionNoExtra
  | _ => true

/-- No unrecognized keys in a next-step action. -/
def NextStepActionNoExtra : Json → Bool
  | .obj fs => fs.all fun e => keyMem e.1 ["action_type", "description", "priority", "timeline"]
  | _ => true

/-- No unrecognized keys anywhere in the next-steps plan. -/
def NextStepsNoExtra : Json → Bool
  | .obj fs => (fs.all fun e => keyMem e.1 ["actions", "follow_up_appointment", "red_flags"])
      && noExtraArrAt fs "actions" NextStepActionNoExtra
  | _ => true

/-- No unrecognized keys anywhere in the payload tree. -/
def ConsultationSummaryResponseNoExtra : Json → Bool
  | .obj fs => (fs.all fun e => keyMem e.1 ["clinical_summary", "next_steps", "patient_email",
        "generation_timestamp", "model_version"])
      && noExtraObjAt fs "clinical_summary" ClinicalSummaryNoExtra
      && noExtraObjAt fs "next_steps" NextStepsNoExtra
      && noExtraObjAt fs "patient_email" PatientFollowUpEmailNoExtra
  | _ => true

/-- The exact payload shape of the data-model section: the payload is
composed of precisely the declared fields (no unrecognized keys), all
required fields present with the right types, enumerated fields in their
closed sets, declared arrays present. -/
def ConsultationPayloadExactShape (v : Json) : Bool :=
  ConsultationSummaryResponseShape v && ConsultationSummaryResponseNoExtra v

/-! ### The streaming session, modelled from the `handleSubmit` function
of the product page.  The state collects exactly the pieces of component
state the message handler mutates: the local chunk `buffer`, the
`structuredOutput` holding the validated payload, the `loading` flag, the
`output` text, and the text of the last `alert` shown to the user. -/

structure SessionState where
  buffer : String
  structuredOutput : Option Json
  loading : Bool
  output : String
  lastAlert : Option String

/-- One inbound server-sent message: either its data failed `JSON.parse`
(the handler catches, logs, and leaves all state unchanged), or it
decoded to a JSON value. -/
inductive RawMessage where
  | malformed (raw : String)
  | json (j : Json)

/-! JS string coercion of a value interpolated into a template literal.
Array rendering joins elements with commas as `Array.prototype.toString`
does (nullish elements approximated; no claim exercises non-string
content). -/

mutual
/-- Coercion of one JSON value to display text. -/
def jsToString : Json → String
  | .null => "null"
  | .bool true => "true"
  | .bool false => "false"
  | .num n => toString n
  | .str s => s
  | .arr [] => ""
  | .arr (x :: xs) => jsToString x ++ jsArrRest xs
  | .obj _ => "[object Object]"
/-- Comma-separated tail of an array rendering. -/
def jsArrRest : List Json → String
  | [] => ""
  | x :: xs => "," ++ jsToString x ++ jsArrRest xs
end

/-- Coercion of a possibly-undefined value to display text. -/
def jsDisplay : Option Json → String
  | none => "undefined"
  | some v => jsToString v

/-- The switch discriminant `parsed.type` when it is a string; any
non-string discriminant (including property access on `null`, which
throws and is recovered by the surrounding catch with no state change)
falls through to the default branch. -/
def envelopeTag (j : Json) : Option String :=
  match getField j "type" with
  | some (.str s) => some s
  | _ => none

/-- The `complete` branch of the handler: on a successful `safeParse`
store the validated payload and stop loading; on failure alert and stop
loading. -/
def completeStep (st : SessionState) (r : Except (List Issue) Json) : SessionState :=
  match r with
  | .ok q => { st with structuredOutput := some q, loading := false }
  | .error _ => { st with lastAlert := some "Failed to validate response", loading := false }

/-- The `onmessage` handler: `chunk` appends to the local buffer,
`complete` runs `ConsultationSummaryResponseSchema.safeParse` on
`parsed.data` and either stores the validated payload or alerts, `error`
alerts with the remote message and stops loading, and anything else is
only logged. -/
def onMessage (st : SessionState) (msg : RawMessage) : SessionState :=
  match msg with
  | .malformed _ => st
  | .json j =>
    match envelopeTag j with
    | some "chunk" => { st with buffer := st.buffer ++ jsDisplay (getField j "content") }
    | some "complete" => completeStep st (safeParseData (getField j "data"))
    | some "error" =>
        { st with lastAlert := some ("Error: " ++ jsDisplay (getField j "message")),
                  loading := false }
    | _ => st

/-- Process a finite sequence of inbound messages in arrival order. -/
def processAll (st : SessionState) (msgs : List RawMessage) : SessionState :=
  msgs.foldl onMessage st

/-- The wire form of a `chunk` envelope carrying `content`. -/
def chunkMsg (content : String) : RawMessage :=
  .json (.obj [("type", .str "chunk"), ("content", .str content)])

/-- The wire form of a `complete` envelope carrying `data`. -/
def completeMsg (data : Json) : RawMessage :=
  .json (.obj [("type", .str "complete"), ("data", data)])

/-- The wire form of an `error` envelope carrying `message`. -/
def errorMsg (message : String) : RawMessage :=
  .json (.obj [("type", .str "error"), ("message", .str message)])

/-- JS truthiness of a string-or-nullish value: `undefined`, `null` and
the empty string are falsy. -/
def strTruthy : Option String → Bool
  | none => false
  | some s => s != ""

/-- Whether `startSession` went on to open the push connection. -/
inductive StartOutcome where
  | unauthenticated
  | connected
deriving DecidableEq, Repr

/-- The start of `handleSubmit`: clear the output, set loading, then the
JWT guard — a falsy token sets the output to the authentication notice,
stops loading, and returns before `fetchEventSource` is ever called. -/
def startSession (tokenResult : Option String) (st : SessionState) : SessionState × StartOutcome :=
  let st1 : SessionState := { st with output := "", loading := true }
  if strTruthy tokenResult then (st1, .connected)
  else ({ st1 with output := "Authentication required", loading := false }, .unauthenticated)

/-! ### The document formatters of `src/utils/formatters.ts`, over the
TypeScript types inferred from the schemas.  Optional-and-nullable
fields collapse to `Option` (`none` for both `undefined` and `null`);
the `if (x)` guards of the source are JS truthiness, `strTruthy` here. -/

structure PhysicalExamFinding where
  body_part : String
  finding : String

structure Assessment where
  diagnosis : String
  icd_code : Option String
  severity : Option String

structure ClinicalSummary where
  patient_name : String
  visit_date : String
  chief_complaint : String
  history_of_present_illness : String
  vital_signs : Option String
  physical_exam_findings : List PhysicalExamFinding
  assessments : List Assessment
  additional_notes : Option String

structure NextStepAction where
  action_type : String
  description : String
  priority : Option String
  timeline : Option String

structure NextSteps where
  actions : List NextStepAction
  follow_up_appointment : Option String
  red_flags : Option (List String)

/-- `formatClinicalSummary`, translated statement by statement. -/
def formatClinicalSummary (summary : ClinicalSummary) : String :=
  let output := "Patient: " ++ summary.patient_name ++ "\nDate: " ++ summary.visit_date
      ++ "\n\nChief Complaint: " ++ summary.chief_complaint
      ++ "\n\nHistory of Present Illness:\n" ++ summary.history_of_present_illness ++ "\n"
  let output := if strTruthy summary.vital_signs then
      output ++ "\nVital Signs:\n" ++ summary.vital_signs.getD "" ++ "\n"
    else output
  let output := if summary.physical_exam_findings.length > 0 then
      summary.physical_exam_findings.foldl
        (fun acc finding => acc ++ "- " ++ finding.body_part ++ ": " ++ finding.finding ++ "\n")
        (output ++ "\nPhysical Examination:\n")
    else output
  let output := summary.assessments.enum.foldl (fun acc pr =>
      acc ++ toString (pr.1 + 1) ++ ". " ++ pr.2.diagnosis
        ++ (if strTruthy pr.2.icd_code then " (ICD-10: " ++ pr.2.icd_code.getD "" ++ ")" else "")
        ++ (if strTruthy pr.2.severity then " - Severity: " ++ pr.2.severity.getD "" else "")
        ++ "\n") (output ++ "\nAssessment:\n")
  if strTruthy summary.additional_notes then
    output ++ "\nAdditional Notes:\n" ++ summary.additional_notes.getD "" ++ "\n"
  else output

/-- The guard `nextSteps.red_flags && nextSteps.red_flags.length > 0`:
a nullish field is falsy, an array is truthy, so the block renders only
for a present, non-empty sequence. -/
def redFlagsTruthy : Option (List String) → Bool
  | none => false
  | some flags => decide (flags.length > 0)

/-- `formatNextSteps`, translated statement by statement. -/
def formatNextSteps (nextSteps : NextSteps) : String :=
  let output := ""
  let output := nextSteps.actions.enum.foldl (fun acc pr =>
      acc ++ toString (pr.1 + 1) ++ ". [" ++ pr.2.action_type.toUpper ++ "] " ++ pr.2.description
        ++ (if strTruthy pr.2.timeline then " (Timeline: " ++ pr.2.timeline.getD "" ++ ")" else "")
        ++ (if strTruthy pr.2.priority then " [Priority: " ++ pr.2.priority.getD "" ++ "]" else "")
        ++ "\n") output
  let output := if strTruthy nextSteps.follow_up_appointment then
      output ++ "\nFollow-up Appointment: " ++ nextSteps.follow_up_appointment.getD "" ++ "\n"
    else output
  if redFlagsTruthy nextSteps.red_flags then
    (nextSteps.red_flags.getD []).foldl (fun acc flag => acc ++ "- " ++ flag ++ "\n")
      (output ++ "\n⚠️ Red Flags - Call immediately if:\n")
  else output

/-! ### Rendered-block descriptions, following the formatter contract
wording of the specification; the claims equate the formatters with the
concatenation of these blocks. -/

/-- Concatenation of a list of rendered lines. -/
def concatAll : List String → String
  | [] => ""
  | s :: ss => s ++ concatAll ss

/-- The fixed header: patient, date, chief complaint, HPI narrative. -/
def clinicalHeaderSpec (s : ClinicalSummary) : String :=
  "Patient: " ++ s.patient_name ++ "\nDate: " ++ s.visit_date
    ++ "\n\nChief Complaint: " ++ s.chief_complaint
    ++ "\n\nHistory of Present Illness:\n" ++ s.history_of_present_illness ++ "\n"

/-- The vital-signs block, only when present. -/
def vitalSignsBlockSpec (s : ClinicalSummary) : String :=
  if strTruthy s.vital_signs then "\nVital Signs:\n" ++ s.vital_signs.getD "" ++ "\n" else ""

/-- The physical-examination block: appended only when the findings
sequence is non-empty, one line per finding. -/
def examBlockSpec (findings : List PhysicalExamFinding) : String :=
  if findings.isEmpty then ""
  else "\nPhysical Examination:\n"
    ++ concatAll (findings.map fun f => "- " ++ f.body_part ++ ": " ++ f.finding ++ "\n")

/-- One 1-indexed assessment line: the diagnosis, then the optional
ICD-10 suffix, then the optional severity suffix, in that fixed order. -/
def assessmentLineSpec (n : Nat) (a : Assessment) : String :=
  toString n ++ ". " ++ a.diagnosis
    ++ (if strTruthy a.icd_code then " (ICD-10: " ++ a.icd_code.getD "" ++ ")" else "")
    ++ (if strTruthy a.severity then " - Severity: " ++ a.severity.getD "" else "")
    ++ "\n"

/-- The assessment block, always appended. -/
def assessmentBlockSpec (as : List Assessment) : String :=
  "\nAssessment:\n" ++ concatAll (as.enum.map fun pr => assessmentLineSpec (pr.1 + 1) pr.2)

/-- The additional-notes block, only when present. -/
def additionalNotesBlockSpec (s : ClinicalSummary) : String :=
  if strTruthy s.additional_notes then
    "\nAdditional Notes:\n" ++ s.additional_notes.getD "" ++ "\n"
  else ""

/-- One 1-indexed action line: the upper-cased action type in brackets
and the description, then the optional timeline suffix, then the
optional priority suffix, in that order. -/
def actionLineSpec (n : Nat) (a : NextStepAction) : String :=
  toString n ++ ". [" ++ a.action_type.toUpper ++ "] " ++ a.description
    ++ (if strTruthy a.timeline then " (Timeline: " ++ a.timeline.getD "" ++ ")" else "")
    ++ (if strTruthy a.priority then " [Priority: " ++ a.priority.getD "" ++ "]" else "")
    ++ "\n"

/-- The action list, one line per action. -/
def actionsBlockSpec (actions : List NextStepAction) : String :=
  concatAll (actions.enum.map fun pr => actionLineSpec (pr.1 + 1) pr.2)

/-- The follow-up-appointment line, only when the field is present. -/
def followUpLineSpec (ns : NextSteps) : String :=
  if strTruthy ns.follow_up_appointment then
    "\nFollow-up Appointment: " ++ ns.follow_up_appointment.getD "" ++ "\n"
  else ""

/-- The red-flags block for a possibly-absent flag sequence: header plus
one bulleted line per flag, only when present and non-empty. -/
def redFlagsBlockSpecOf : Option (List String) → String
  | some flags =>
      if flags.isEmpty then ""
      else "\n⚠️ Red Flags - Call immediately if:\n"
        ++ concatAll (flags.map fun flag => "- " ++ flag ++ "\n")
  | none => ""

/-- The red-flags block of a next-steps plan. -/
def redFlagsBlockSpec (ns : NextSteps) : String :=
  redFlagsBlockSpecOf ns.red_flags

/-- The entry a field of the input object induces in the stripped
output: nothing when absent, the original key/value pair otherwise. -/
def entOfOpt (k : String) (fs : List (String × Json)) : List (String × Json) :=
  match fieldAt k fs with
  | none => []
  | some v => [(k, v)]

/-- Component state while a stream is in flight. -/
def streamingState : SessionState :=
  { buffer := "", structuredOutput := none, loading := true, output := "", lastAlert := none }

/-- The top-level fields of a small valid payload, mirroring the passing
fixture of the schema test suite. -/
def demoFields : List (String × Json) :=
  [("clinical_summary", .obj [("patient_name", .str "John Doe"),
      ("visit_date", .str "2025-11-15"),
      ("chief_complaint", .str "Headache"),
      ("history_of_present_illness", .str "Patient reports headache."),
      ("vital_signs", .null),
      ("physical_exam_findings", .arr [.obj [("body_part", .str "Head"), ("finding", .str "Tenderness")]]),
      ("assessments", .arr [.obj [("diagnosis", .str "Tension headache"), ("icd_code", .str "G44.2"), ("severity", .str "mild")]]),
      ("additional_notes", .str "Recommend acetaminophen.")]),
   ("next_steps", .obj [("actions", .arr [.obj [("action_type", .str "treatment"), ("description", .str "Take acetaminophen"), ("priority", .str "high"), ("timeline", .str "As needed")]]),
      ("follow_up_appointment", .str "2025-11-20"),
      ("red_flags", .arr [.str "Severe headache", .str "Vision changes"])]),
   ("patient_email", .obj [("greeting", .str "Hello,"),
      ("summary_of_findings", .str "Signs of tension headache"),
      ("treatment_plan", .str "Use acetaminophen as needed"),
      ("patient_instructions", .arr [.obj [("instruction", .str "Take acetaminophen when headache occurs"), ("category", .str "medication")]]),
      ("warning_signs", .arr [.str "Sudden severe headache"]),
      ("next_steps_timeline", .str "Follow up in 5 days"),
      ("closing", .str "Best regards,"),
      ("physician_signature", .str "Dr. Smith")]),
   ("generation_timestamp", .str "2025-11-15T12:00:00Z")]

/-- A valid payload of the exact data-model shape. -/
def demoPayload : Json := .obj demoFields

/-- The same payload with one unrecognized top-level key added. -/
def demoPayloadExtra : Json := .obj (demoFields ++ [("debug_info", .str "x")])

/-- The failing fixture of the schema test suite: all three sub-objects
empty, so every one of their required fields is missing. -/
def badPayload : Json :=
  .obj [("clinical_summary", .obj []), ("next_steps", .obj []),
        ("patient_email", .obj []), ("generation_timestamp", .str "2025-11-15T12:00:00Z")]

/-! ### Basic lemmas about the parsing combinators -/

theorem errsOf_map (f : α → β) (r : Except (List Issue) α) :
    errsOf (r.map f) = errsOf r := by
  cases r <;> rfl

theorem errsOf_combine2 (r : Except (List Issue) α) (s : Except (List Issue) β) :
    errsOf (combine2 r s) = errsOf r ++ errsOf s := by
  cases r <;> cases s <;> simp [combine2, errsOf]

theorem error_of_errs_ne_nil {r : Except (List Issue) α} (h : errsOf r ≠ []) :
    r = .error (errsOf r) := by
  cases r with
  | ok a => simp [errsOf] at h
  | error is => rfl

theorem combine2_ok {r : Except (List Issue) α} {s : Except (List Issue) β} {a b}
    (hr : r = .ok a) (hs : s = .ok b) : combine2 r s = .ok (a, b) := by
  subst hr; subst hs; rfl

theorem inKey_ok {k : String} {r : Except (List Issue) α} {a} (h : r = .ok a) :
    inKey k r = .ok a := by
  subst h; rfl

theorem errsOf_inKey (k : String) (r : Except (List Issue) α) :
    errsOf (inKey k r) = (errsOf r).map fun i => ⟨.key k :: i.path, i.code⟩ := by
  cases r <;> rfl

theorem errsOf_inIdx (n : Nat) (r : Except (List Issue) α) :
    errsOf (inIdx n r) = (errsOf r).map fun i => ⟨.idx n :: i.path, i.code⟩ := by
  cases r <;> rfl

theorem reqField_ok {k : String} {p : Json → Except (List Issue) Json}
    {fs : List (String × Json)} {v o : Json}
    (hv : fieldAt k fs = some v) (hp : p v = .ok o) : reqField k p fs = .ok o := by
  unfold reqField
  rw [hv]
  show inKey k (p v) = .ok o
  rw [hp]
  rfl

theorem reqField_none {k : String} {p : Json → Except (List Issue) Json}
    {fs : List (String × Json)} (h : fieldAt k fs = none) :
    reqField k p fs = .error [⟨[.key k], "required"⟩] := by
  unfold reqField; rw [h]

theorem errsOf_reqField (k : String) (p : Json → Except (List Issue) Json)
    (fs : List (String × Json)) :
    errsOf (reqField k p fs) = match fieldAt k fs with
      | none => [⟨[.key k], "required"⟩]
      | some v => (errsOf (p v)).map fun i => ⟨.key k :: i.path, i.code⟩ := by
  unfold reqField
  cases fieldAt k fs with
  | none => rfl
  | some v => exact errsOf_inKey k (p v)

theorem bool_eq_of_iff {a b : Bool} (h : a = true ↔ b = true) : a = b := by
  cases a <;> cases b <;> simp_all

theorem all_congr_of_mem {l : List α} {p q : α → Bool} (h : ∀ a ∈ l, p a = q a) :
    l.all p = l.all q := by
  induction l with
  | nil => rfl
  | cons x xs ih =>
      simp only [List.all_cons, h x (by simp)]
      rw [ih fun a ha => h a (by simp [ha])]

theorem fieldAt_append (k : String) (as bs : List (String × Json)) :
    fieldAt k (as ++ bs) = (fieldAt k as).or (fieldAt k bs) := by
  induction as with
  | nil => rfl
  | cons e as ih =>
      obtain ⟨k', v⟩ := e
      by_cases h : k' = k <;> simp [fieldAt, h, ih, Option.or]

theorem isSome_fieldAt_append (k : String) (as bs : List (String × Json)) :
    (fieldAt k (as ++ bs)).isSome = ((fieldAt k as).isSome || (fieldAt k bs).isSome) := by
  rw [fieldAt_append]
  cases fieldAt k as <;> simp [Option.or]

theorem fieldAt_single (k k1 : String) (v : Json) :
    fieldAt k [(k1, v)] = if k1 = k then some v else none := rfl

theorem fieldAt_entOfOpt (k k1 : String) (fs : List (String × Json)) :
    fieldAt k (entOfOpt k1 fs) = if k1 = k then (fieldAt k1 fs).elim none some else none := by
  unfold entOfOpt
  cases fieldAt k1 fs with
  | none => simp [fieldAt]
  | some v => simp [fieldAt_single]

theorem mem_fieldAt_isSome {fs : List (String × Json)} {e : String × Json} (h : e ∈ fs) :
    (fieldAt e.1 fs).isSome = true := by
  induction fs with
  | nil => cases h
  | cons x xs ih =>
      obtain ⟨k', v⟩ := x
      by_cases hk : k' = e.1
      · simp [fieldAt, hk]
      · rcases List.mem_cons.mp h with he | he
        · subst he; simp at hk
        · simp [fieldAt, hk, ih he]

theorem inIdx_ok {n : Nat} {r : Except (List Issue) α} {a} (h : r = .ok a) :
    inIdx n r = .ok a := by
  subst h; rfl

/-! ### Lemmas about deep equality -/

theorem deepEq_obj (fs gs : List (String × Json)) :
    deepEq (.obj fs) (.obj gs) = (fieldsIncl fs gs && keysIncl gs fs) := by
  simp [deepEq]

theorem deepEq_str_self (s : String) : deepEq (.str s) (.str s) = true := by
  simp [deepEq]

theorem deepEq_null_self : deepEq .null .null = true := by
  simp [deepEq]

theorem deepEq_arr (xs ys : List Json) : deepEq (.arr xs) (.arr ys) = deepEqList xs ys := by
  simp [deepEq]

theorem fieldsIncl_nil (gs : List (String × Json)) : fieldsIncl [] gs = true := by
  simp [fieldsIncl]

theorem fieldsIncl_cons (k : String) (v : Json) (fs gs : List (String × Json)) :
    fieldsIncl ((k, v) :: fs) gs =
      ((match fieldAt k gs with | some w => deepEq v w | none => false) && fieldsIncl fs gs) := by
  simp [fieldsIncl]

theorem fieldsIncl_append (as bs gs : List (String × Json)) :
    fieldsIncl (as ++ bs) gs = (fieldsIncl as gs && fieldsIncl bs gs) := by
  induction as with
  | nil => simp [fieldsIncl_nil]
  | cons e as ih =>
      obtain ⟨k, v⟩ := e
      rw [List.cons_append, fieldsIncl_cons, fieldsIncl_cons, ih, Bool.and_assoc]

theorem fieldsIncl_single_of {k : String} {v w : Json} {gs : List (String × Json)}
    (hw : fieldAt k gs = some w) : fieldsIncl [(k, v)] gs = deepEq v w := by
  rw [fieldsIncl_cons, fieldsIncl_nil, hw, Bool.and_true]

theorem fieldsIncl_entOfOpt_of {k : String} {fs : List (String × Json)}
    (h : ∀ v, fieldAt k fs = some v → deepEq v v = true) :
    fieldsIncl (entOfOpt k fs) fs = true := by
  unfold entOfOpt
  cases hv : fieldAt k fs with
  | none => exact fieldsIncl_nil fs
  | some v => rw [fieldsIncl_single_of hv, h v hv]

theorem isSome_fieldAt_entOfOpt (k k1 : String) (fs : List (String × Json)) :
    (fieldAt k (entOfOpt k1 fs)).isSome
      = (if k1 = k then (fieldAt k1 fs).isSome else false) := by
  unfold entOfOpt
  cases hv : fieldAt k1 fs with
  | none =>
      show (fieldAt k []).isSome = _
      unfold fieldAt
      split <;> simp
  | some v =>
      rw [fieldAt_single]
      split <;> simp

theorem isSome_fieldAt_single (k k1 : String) (v : Json) :
    (fieldAt k [(k1, v)]).isSome = (if k1 = k then true else false) := by
  rw [fieldAt_single]
  split <;> simp

theorem keysIncl_eq_all {gs es : List (String × Json)} {ks : List String}
    (h : ∀ e ∈ gs, (fieldAt e.1 es).isSome = keyMem e.1 ks) :
    keysIncl gs es = gs.all fun e => keyMem e.1 ks := by
  unfold keysIncl
  exact all_congr_of_mem h

/-! ### Per-field-kind success lemmas: each well-shaped field parses
successfully and contributes to the stripped output exactly the entry it
had in the input. -/

theorem reqStr_spec {fs : List (String × Json)} {k : String} (h : isStrAt fs k = true) :
    ∃ s, fieldAt k fs = some (.str s) ∧ reqField k parseString fs = .ok (.str s) := by
  unfold isStrAt at h
  split at h
  case _ s heq => exact ⟨s, heq, reqField_ok heq rfl⟩
  case _ => simp at h

theorem reqEnum_spec {fs : List (String × Json)} {k : String} {allowed : List String}
    (h : isEnumAt fs k allowed = true) :
    ∃ s, fieldAt k fs = some (.str s)
      ∧ reqField k (parseEnum allowed) fs = .ok (.str s) := by
  unfold isEnumAt at h
  split at h
  case _ s heq =>
    refine ⟨s, heq, reqField_ok heq ?_⟩
    have hmem : s ∈ allowed := by simpa using h
    simp [parseEnum, hmem]
  case _ => simp at h

theorem optStr_spec {fs : List (String × Json)} {k : String} (h : isOptNullStrAt fs k = true) :
    ∃ o, optField k parseString fs = .ok o ∧ optEnt k o = entOfOpt k fs := by
  unfold isOptNullStrAt at h
  split at h
  case _ heq => exact ⟨none, by simp [optField, heq], by simp [optEnt, entOfOpt, heq]⟩
  case _ heq => exact ⟨some .null, by simp [optField, heq], by simp [optEnt, entOfOpt, heq]⟩
  case _ s heq =>
    exact ⟨some (.str s), by simp [optField, heq, parseString, inKey, Except.map],
           by simp [optEnt, entOfOpt, heq]⟩
  case _ => simp at h

theorem optEnum_spec {fs : List (String × Json)} {k : String} {allowed : List String}
    (h : isOptNullEnumAt fs k allowed = true) :
    ∃ o, optField k (parseEnum allowed) fs = .ok o ∧ optEnt k o = entOfOpt k fs := by
  unfold isOptNullEnumAt at h
  split at h
  case _ heq => exact ⟨none, by simp [optField, heq], by simp [optEnt, entOfOpt, heq]⟩
  case _ heq => exact ⟨some .null, by simp [optField, heq], by simp [optEnt, entOfOpt, heq]⟩
  case _ s heq =>
    have hmem : s ∈ allowed := by simpa using h
    exact ⟨some (.str s), by simp [optField, heq, parseEnum, hmem, inKey, Except.map],
           by simp [optEnt, entOfOpt, heq]⟩
  case _ => simp at h

theorem fieldsIncl_entOfOpt_str {fs : List (String × Json)} {k : String}
    (h : isOptNullStrAt fs k = true) : fieldsIncl (entOfOpt k fs) fs = true := by
  refine fieldsIncl_entOfOpt_of fun v hv => ?_
  unfold isOptNullStrAt at h
  rw [hv] at h
  cases v <;> simp at h <;> simp [deepEq]

theorem fieldsIncl_entOfOpt_enum {fs : List (String × Json)} {k : String} {allowed : List String}
    (h : isOptNullEnumAt fs k allowed = true) : fieldsIncl (entOfOpt k fs) fs = true := by
  refine fieldsIncl_entOfOpt_of fun v hv => ?_
  unfold isOptNullEnumAt at h
  rw [hv] at h
  cases v <;> simp at h <;> simp [deepEq]

/-! ### Array lemmas -/

theorem parseList_str_id {vs : List Json} (h : vs.all isStr = true) :
    ∀ n, parseList parseString n vs = .ok vs := by
  induction vs with
  | nil => intro n; rfl
  | cons v vs ih =>
      intro n
      rw [List.all_cons, Bool.and_eq_true] at h
      obtain ⟨hv, hvs⟩ := h
      cases v <;> simp [isStr] at hv
      case str s =>
        unfold parseList
        rw [combine2_ok (inIdx_ok (rfl : parseString (.str s) = .ok (.str s))) (ih hvs (n + 1))]
        rfl

theorem deepEqList_self_of_str {vs : List Json} (h : vs.all isStr = true) :
    deepEqList vs vs = true := by
  induction vs with
  | nil => simp [deepEqList]
  | cons v vs ih =>
      rw [List.all_cons, Bool.and_eq_true] at h
      obtain ⟨hv, hvs⟩ := h
      cases v <;> simp [isStr] at hv
      simp [deepEqList, deepEq, ih hvs]

theorem parseList_spec {p : Json → Except (List Issue) Json} {shape noEx : Json → Bool}
    (hrec : ∀ v, shape v = true → ∃ o, p v = .ok o ∧ deepEq o v = noEx v) :
    ∀ (vs : List Json), vs.all shape = true →
      ∀ n, ∃ os, parseList p n vs = .ok os ∧ deepEqList os vs = vs.all noEx := by
  intro vs
  induction vs with
  | nil => exact fun _ n => ⟨[], rfl, by simp [deepEqList]⟩
  | cons v vs ih =>
      intro h n
      rw [List.all_cons, Bool.and_eq_true] at h
      obtain ⟨hv, hvs⟩ := h
      obtain ⟨o, hp, hde⟩ := hrec v hv
      obtain ⟨os, hps, hdes⟩ := ih hvs (n + 1)
      refine ⟨o :: os, ?_, ?_⟩
      · unfold parseList
        rw [combine2_ok (inIdx_ok hp) hps]
        rfl
      · simp [deepEqList, hde, hdes, List.all_cons]

/-! ### Per-schema success lemmas: a payload of the required shape
parses successfully, and the stripped output deep-equals the input
exactly when the input carries no unrecognized keys. -/

theorem PhysicalExamFindingSchema_spec :
    ∀ v, PhysicalExamFindingShape v = true →
      ∃ out, PhysicalExamFindingSchema v = .ok out
        ∧ deepEq out v = PhysicalExamFindingNoExtra v := by
  intro v h
  cases v <;> simp only [PhysicalExamFindingShape, Bool.and_eq_true] at h
    <;> try exact Bool.noConfusion h
  case obj fs =>
  obtain ⟨h1, h2⟩ := h
  obtain ⟨b, hb, hbp⟩ := reqStr_spec h1
  obtain ⟨f, hf, hfp⟩ := reqStr_spec h2
  refine ⟨.obj [("body_part", .str b), ("finding", .str f)], ?_, ?_⟩
  · show (combine2 (reqField "body_part" parseString fs)
        (reqField "finding" parseString fs)).map _ = _
    rw [combine2_ok hbp hfp]
    rfl
  · rw [deepEq_obj]
    have hsplit : [("body_part", Json.str b), ("finding", Json.str f)]
        = [("body_part", Json.str b)] ++ [("finding", Json.str f)] := rfl
    rw [hsplit, fieldsIncl_append, fieldsIncl_single_of hb, fieldsIncl_single_of hf,
        deepEq_str_self, deepEq_str_self, Bool.and_true, Bool.true_and]
    unfold PhysicalExamFindingNoExtra
    refine keysIncl_eq_all fun e he => ?_
    rw [isSome_fieldAt_append, isSome_fieldAt_single, isSome_fieldAt_single]
    simp only [keyMem]
    by_cases e1 : "body_part" = e.1 <;> by_cases e2 : "finding" = e.1
      <;> simp [e1, e2]

theorem AssessmentSchema_spec :
    ∀ v, AssessmentShape v = true →
      ∃ out, AssessmentSchema v = .ok out ∧ deepEq out v = AssessmentNoExtra v := by
  intro v h
  cases v <;> simp only [AssessmentShape, Bool.and_eq_true] at h
    <;> try exact Bool.noConfusion h
  case obj fs =>
  obtain ⟨⟨h1, h2⟩, h3⟩ := h
  obtain ⟨d, hd, hdp⟩ := reqStr_spec h1
  obtain ⟨o2, ho2, ho2e⟩ := optStr_spec h2
  obtain ⟨o3, ho3, ho3e⟩ := optEnum_spec h3
  refine ⟨.obj ([("diagnosis", .str d)] ++ optEnt "icd_code" o2 ++ optEnt "severity" o3), ?_, ?_⟩
  · show (combine2 (reqField "diagnosis" parseString fs)
        (combine2 (optField "icd_code" parseString fs)
          (optField "severity" (parseEnum ["mild", "moderate", "severe"]) fs))).map _ = _
    rw [combine2_ok hdp (combine2_ok ho2 ho3)]
    rfl
  · rw [ho2e, ho3e, deepEq_obj, fieldsIncl_append, fieldsIncl_append,
        fieldsIncl_single_of hd, deepEq_str_self,
        fieldsIncl_entOfOpt_str h2, fieldsIncl_entOfOpt_enum h3,
        Bool.and_true, Bool.and_true, Bool.true_and]
    unfold AssessmentNoExtra
    refine keysIncl_eq_all fun e he => ?_
    have hpres := mem_fieldAt_isSome he
    rw [isSome_fieldAt_append, isSome_fieldAt_append, isSome_fieldAt_single,
        isSome_fieldAt_entOfOpt, isSome_fieldAt_entOfOpt]
    simp only [keyMem]
    by_cases e1 : "diagnosis" = e.1 <;> by_cases e2 : "icd_code" = e.1
      <;> by_cases e3 : "severity" = e.1 <;> simp [e1, e2, e3, hpres]

theorem isSome_fieldAt_cons (k k1 : String) (v : Json) (rest : List (String × Json)) :
    (fieldAt k ((k1, v) :: rest)).isSome
      = (if k1 = k then true else (fieldAt k rest).isSome) := by
  show (if k1 = k then some v else fieldAt k rest).isSome
      = (if k1 = k then true else (fieldAt k rest).isSome)
  split <;> rfl

theorem fieldsIncl_cons_of {k : String} {v w : Json} {fs rest : List (String × Json)}
    (hw : fieldAt k fs = some w) :
    fieldsIncl ((k, v) :: rest) fs = (deepEq v w && fieldsIncl rest fs) := by
  rw [fieldsIncl_cons, hw]

theorem reqArr_spec {fs : List (String × Json)} {k : String}
    {p : Json → Except (List Issue) Json} {shape noEx : Json → Bool}
    (hrec : ∀ v, shape v = true → ∃ o, p v = .ok o ∧ deepEq o v = noEx v)
    (h : isArrAllAt fs k shape = true) :
    ∃ vs os, fieldAt k fs = some (.arr vs)
      ∧ reqField k (parseArray p) fs = .ok (.arr os)
      ∧ deepEq (.arr os) (.arr vs) = vs.all noEx := by
  unfold isArrAllAt at h
  split at h
  case _ vs heq =>
    obtain ⟨os, hos, hde⟩ := parseList_spec hrec vs h 0
    refine ⟨vs, os, heq, reqField_ok heq ?_, ?_⟩
    · show Except.map Json.arr (parseList p 0 vs) = Except.ok (Json.arr os)
      rw [hos]
      rfl
    · rw [deepEq_arr]
      exact hde
  case _ => exact Bool.noConfusion h

theorem reqStrArr_spec {fs : List (String × Json)} {k : String}
    (h : isArrAllAt fs k isStr = true) :
    ∃ vs, fieldAt k fs = some (.arr vs)
      ∧ reqField k (parseArray parseString) fs = .ok (.arr vs)
      ∧ deepEq (.arr vs) (.arr vs) = true := by
  unfold isArrAllAt at h
  split at h
  case _ vs heq =>
    refine ⟨vs, heq, reqField_ok heq ?_, ?_⟩
    · show Except.map Json.arr (parseList parseString 0 vs) = Except.ok (Json.arr vs)
      rw [parseList_str_id h 0]
      rfl
    · rw [deepEq_arr]
      exact deepEqList_self_of_str h
  case _ => exact Bool.noConfusion h

theorem optStrArr_spec {fs : List (String × Json)} {k : String}
    (h : isOptNullArrAllAt fs k isStr = true) :
    ∃ o, optField k (parseArray parseString) fs = .ok o
      ∧ optEnt k o = entOfOpt k fs
      ∧ fieldsIncl (optEnt k o) fs = true := by
  unfold isOptNullArrAllAt at h
  split at h
  case _ heq =>
    exact ⟨none, by simp [optField, heq], by simp [optEnt, entOfOpt, heq],
           by simp [optEnt, fieldsIncl_nil]⟩
  case _ heq =>
    refine ⟨some .null, by simp [optField, heq], by simp [optEnt, entOfOpt, heq], ?_⟩
    show fieldsIncl [(k, .null)] fs = true
    rw [fieldsIncl_single_of heq, deepEq_null_self]
  case _ vs heq =>
    have harr : parseArray parseString (Json.arr vs) = Except.ok (Json.arr vs) := by
      show Except.map Json.arr (parseList parseString 0 vs) = Except.ok (Json.arr vs)
      rw [parseList_str_id h 0]
      rfl
    refine ⟨some (.arr vs), ?_, by simp [optEnt, entOfOpt, heq], ?_⟩
    · unfold optField
      rw [heq]
      show Except.map some (inKey k (parseArray parseString (Json.arr vs)))
          = Except.ok (some (Json.arr vs))
      rw [harr]
      rfl
    · show fieldsIncl [(k, .arr vs)] fs = true
      rw [fieldsIncl_single_of heq, deepEq_arr]
      exact deepEqList_self_of_str h
  case _ => exact Bool.noConfusion h

theorem PatientInstructionSchema_spec :
    ∀ v, PatientInstructionShape v = true →
      ∃ out, PatientInstructionSchema v = .ok out
        ∧ deepEq out v = PatientInstructionNoExtra v := by
  intro v h
  cases v <;> simp only [PatientInstructionShape, Bool.and_eq_true] at h
    <;> try exact Bool.noConfusion h
  case obj fs =>
  obtain ⟨h1, h2⟩ := h
  obtain ⟨b, hb, hbp⟩ := reqStr_spec h1
  obtain ⟨f, hf, hfp⟩ := reqStr_spec h2
  refine ⟨.obj [("instruction", .str b), ("category", .str f)], ?_, ?_⟩
  · show (combine2 (reqField "instruction" parseString fs)
        (reqField "category" parseString fs)).map _ = _
    rw [combine2_ok hbp hfp]
    rfl
  · rw [deepEq_obj]
    have hsplit : [("instruction", Json.str b), ("category", Json.str f)]
        = [("instruction", Json.str b)] ++ [("category", Json.str f)] := rfl
    rw [hsplit, fieldsIncl_append, fieldsIncl_single_of hb, fieldsIncl_single_of hf,
        deepEq_str_self, deepEq_str_self, Bool.and_true, Bool.true_and]
    unfold PatientInstructionNoExtra
    refine keysIncl_eq_all fun e he => ?_
    rw [isSome_fieldAt_append, isSome_fieldAt_single, isSome_fieldAt_single]
    simp only [keyMem]
    by_cases e1 : "instruction" = e.1 <;> by_cases e2 : "category" = e.1
      <;> simp [e1, e2]

theorem NextStepActionSchema_spec :
    ∀ v, NextStepActionShape v = true →
      ∃ out, NextStepActionSchema v = .ok out ∧ deepEq out v = NextStepActionNoExtra v := by
  intro v h
  cases v <;> simp only [NextStepActionShape, Bool.and_eq_true] at h
    <;> try exact Bool.noConfusion h
  case obj fs =>
  obtain ⟨⟨⟨h1, h2⟩, h3⟩, h4⟩ := h
  obtain ⟨a, ha, hap⟩ := reqEnum_spec h1
  obtain ⟨d, hd, hdp⟩ := reqStr_spec h2
  obtain ⟨o3, ho3, ho3e⟩ := optEnum_spec h3
  obtain ⟨o4, ho4, ho4e⟩ := optStr_spec h4
  refine ⟨.obj ([("action_type", .str a), ("description", .str d)]
      ++ optEnt "priority" o3 ++ optEnt "timeline" o4), ?_, ?_⟩
  · show (combine2 (reqField "action_type"
        (parseEnum ["diagnostic", "treatment", "referral", "follow-up", "education"]) fs)
      (combine2 (reqField "description" parseString fs)
      (combine2 (optField "priority" (parseEnum ["high", "medium", "low"]) fs)
                (optField "timeline" parseString fs)))).map _ = _
    rw [combine2_ok hap (combine2_ok hdp (combine2_ok ho3 ho4))]
    rfl
  · rw [ho3e, ho4e, deepEq_obj]
    simp only [List.cons_append, List.nil_append]
    rw [fieldsIncl_cons_of ha, fieldsIncl_cons_of hd, fieldsIncl_append,
        fieldsIncl_entOfOpt_enum h3, fieldsIncl_entOfOpt_str h4,
        deepEq_str_self, deepEq_str_self]
    simp only [Bool.and_true, Bool.true_and]
    unfold NextStepActionNoExtra
    refine keysIncl_eq_all fun e he => ?_
    have hpres := mem_fieldAt_isSome he
    rw [isSome_fieldAt_cons, isSome_fieldAt_cons, isSome_fieldAt_append,
        isSome_fieldAt_entOfOpt, isSome_fieldAt_entOfOpt]
    simp only [keyMem]
    by_cases e1 : "action_type" = e.1
    · simp [e1]
    rw [if_neg e1, if_neg e1]
    by_cases e2 : "description" = e.1
    · simp [e2]
    rw [if_neg e2, if_neg e2]
    by_cases e3 : "priority" = e.1
    · simp [e3, hpres]
    rw [if_neg e3, if_neg e3, Bool.false_or]
    by_cases e4 : "timeline" = e.1
    · simp [e4, hpres]
    rw [if_neg e4, if_neg e4]

theorem NextStepsSchema_spec :
    ∀ v, NextStepsShape v = true →
      ∃ out, NextStepsSchema v = .ok out ∧ deepEq out v = NextStepsNoExtra v := by
  intro v h
  cases v <;> simp only [NextStepsShape, Bool.and_eq_true] at h
    <;> try exact Bool.noConfusion h
  case obj fs =>
  obtain ⟨⟨h1, h2⟩, h3⟩ := h
  obtain ⟨vsA, osA, hvA, hpA, hdeA⟩ := reqArr_spec NextStepActionSchema_spec h1
  obtain ⟨o2, ho2, ho2e⟩ := optStr_spec h2
  obtain ⟨o3, ho3, ho3e, ho3f⟩ := optStrArr_spec h3
  refine ⟨.obj ([("actions", .arr osA)] ++ optEnt "follow_up_appointment" o2
      ++ optEnt "red_flags" o3), ?_, ?_⟩
  · show (combine2 (reqField "actions" (parseArray NextStepActionSchema) fs)
      (combine2 (optField "follow_up_appointment" parseString fs)
                (optField "red_flags" (parseArray parseString) fs))).map _ = _
    rw [combine2_ok hpA (combine2_ok ho2 ho3)]
    rfl
  · rw [ho2e, ho3e, deepEq_obj]
    simp only [List.cons_append, List.nil_append]
    rw [fieldsIncl_cons_of hvA, hdeA, fieldsIncl_append]
    rw [fieldsIncl_entOfOpt_str h2]
    rw [show fieldsIncl (entOfOpt "red_flags" fs) fs = true from ho3e ▸ ho3f]
    simp only [Bool.and_true, Bool.true_and]
    simp only [NextStepsNoExtra]
    have harr : noExtraArrAt fs "actions" NextStepActionNoExtra
        = vsA.all NextStepActionNoExtra := by
      unfold noExtraArrAt
      rw [hvA]
    rw [harr]
    have hkeys : keysIncl fs (("actions", Json.arr osA)
        :: (entOfOpt "follow_up_appointment" fs ++ entOfOpt "red_flags" fs))
        = fs.all fun e => keyMem e.1 ["actions", "follow_up_appointment", "red_flags"] := by
      refine keysIncl_eq_all fun e he => ?_
      have hpres := mem_fieldAt_isSome he
      rw [isSome_fieldAt_cons, isSome_fieldAt_append,
          isSome_fieldAt_entOfOpt, isSome_fieldAt_entOfOpt]
      simp only [keyMem]
      by_cases e1 : "actions" = e.1
      · simp [e1]
      rw [if_neg e1, if_neg e1]
      by_cases e2 : "follow_up_appointment" = e.1
      · simp [e2, hpres]
      rw [if_neg e2, if_neg e2, Bool.false_or]
      by_cases e3 : "red_flags" = e.1
      · simp [e3, hpres]
      rw [if_neg e3, if_neg e3]
    rw [hkeys]
    apply bool_eq_of_iff
    simp only [Bool.and_eq_true]
    tauto

theorem isSome_fieldAt_nil (k : String) : (fieldAt k []).isSome = false := rfl

theorem ClinicalSummarySchema_spec :
    ∀ v, ClinicalSummaryShape v = true →
      ∃ out, ClinicalSummarySchema v = .ok out ∧ deepEq out v = ClinicalSummaryNoExtra v := by
  intro v h
  cases v <;> simp only [ClinicalSummaryShape, Bool.and_eq_true] at h
    <;> try exact Bool.noConfusion h
  case obj fs =>
  obtain ⟨⟨⟨⟨⟨⟨⟨h1, h2⟩, h3⟩, h4⟩, h5⟩, h6⟩, h7⟩, h8⟩ := h
  obtain ⟨s1, h1v, h1p⟩ := reqStr_spec h1
  obtain ⟨s2, h2v, h2p⟩ := reqStr_spec h2
  obtain ⟨s3, h3v, h3p⟩ := reqStr_spec h3
  obtain ⟨s4, h4v, h4p⟩ := reqStr_spec h4
  obtain ⟨o5, ho5, ho5e⟩ := optStr_spec h5
  obtain ⟨vsF, osF, hvF, hpF, hdeF⟩ := reqArr_spec PhysicalExamFindingSchema_spec h6
  obtain ⟨vsA, osA, hvA, hpA, hdeA⟩ := reqArr_spec AssessmentSchema_spec h7
  obtain ⟨o8, ho8, ho8e⟩ := optStr_spec h8
  refine ⟨.obj ([("patient_name", .str s1), ("visit_date", .str s2),
      ("chief_complaint", .str s3), ("history_of_present_illness", .str s4)]
      ++ optEnt "vital_signs" o5
      ++ [("physical_exam_findings", .arr osF), ("assessments", .arr osA)]
      ++ optEnt "additional_notes" o8), ?_, ?_⟩
  · show (combine2 (reqField "patient_name" parseString fs)
      (combine2 (reqField "visit_date" parseString fs)
      (combine2 (reqField "chief_complaint" parseString fs)
      (combine2 (reqField "history_of_present_illness" parseString fs)
      (combine2 (optField "vital_signs" parseString fs)
      (combine2 (reqField "physical_exam_findings" (parseArray PhysicalExamFindingSchema) fs)
      (combine2 (reqField "assessments" (parseArray AssessmentSchema) fs)
                (optField "additional_notes" parseString fs)))))))).map _ = _
    rw [combine2_ok h1p (combine2_ok h2p (combine2_ok h3p (combine2_ok h4p
        (combine2_ok ho5 (combine2_ok hpF (combine2_ok hpA ho8))))))]
    rfl
  · rw [ho5e, ho8e, deepEq_obj]
    simp only [List.cons_append, List.nil_append, List.append_assoc]
    rw [fieldsIncl_cons_of h1v, fieldsIncl_cons_of h2v, fieldsIncl_cons_of h3v,
        fieldsIncl_cons_of h4v, fieldsIncl_append, fieldsIncl_entOfOpt_str h5,
        fieldsIncl_cons_of hvF, hdeF, fieldsIncl_cons_of hvA, hdeA,
        fieldsIncl_entOfOpt_str h8]
    simp only [deepEq_str_self, Bool.and_true, Bool.true_and]
    simp only [ClinicalSummaryNoExtra]
    have harrF : noExtraArrAt fs "physical_exam_findings" PhysicalExamFindingNoExtra
        = vsF.all PhysicalExamFindingNoExtra := by
      unfold noExtraArrAt
      rw [hvF]
    have harrA : noExtraArrAt fs "assessments" AssessmentNoExtra
        = vsA.all AssessmentNoExtra := by
      unfold noExtraArrAt
      rw [hvA]
    rw [harrF, harrA]
    have hkeys : keysIncl fs (("patient_name", Json.str s1) :: ("visit_date", Json.str s2)
        :: ("chief_complaint", Json.str s3) :: ("history_of_present_illness", Json.str s4)
        :: (entOfOpt "vital_signs" fs
            ++ (("physical_exam_findings", Json.arr osF) :: ("assessments", Json.arr osA)
                :: entOfOpt "additional_notes" fs)))
        = fs.all fun e => keyMem e.1 ["patient_name", "visit_date", "chief_complaint",
            "history_of_present_illness", "vital_signs", "physical_exam_findings",
            "assessments", "additional_notes"] := by
      refine keysIncl_eq_all fun e he => ?_
      have hpres := mem_fieldAt_isSome he
      rw [isSome_fieldAt_cons, isSome_fieldAt_cons, isSome_fieldAt_cons, isSome_fieldAt_cons,
          isSome_fieldAt_append, isSome_fieldAt_entOfOpt, isSome_fieldAt_cons,
          isSome_fieldAt_cons, isSome_fieldAt_entOfOpt]
      simp only [keyMem]
      by_cases e1 : "patient_name" = e.1
      · simp [e1]
      rw [if_neg e1, if_neg e1]
      by_cases e2 : "visit_date" = e.1
      · simp [e2]
      rw [if_neg e2, if_neg e2]
      by_cases e3 : "chief_complaint" = e.1
      · simp [e3]
      rw [if_neg e3, if_neg e3]
      by_cases e4 : "history_of_present_illness" = e.1
      · simp [e4]
      rw [if_neg e4, if_neg e4]
      by_cases e5 : "vital_signs" = e.1
      · simp [e5, hpres]
      rw [if_neg e5, if_neg e5, Bool.false_or]
      by_cases e6 : "physical_exam_findings" = e.1
      · simp [e6]
      rw [if_neg e6, if_neg e6]
      by_cases e7 : "assessments" = e.1
      · simp [e7]
      rw [if_neg e7, if_neg e7]
      by_cases e8 : "additional_notes" = e.1
      · simp [e8, hpres]
      rw [if_neg e8, if_neg e8]
    rw [hkeys]
    apply bool_eq_of_iff
    simp only [Bool.and_eq_true]
    tauto

theorem PatientFollowUpEmailSchema_spec :
    ∀ v, PatientFollowUpEmailShape v = true →
      ∃ out, PatientFollowUpEmailSchema v = .ok out
        ∧ deepEq out v = PatientFollowUpEmailNoExtra v := by
  intro v h
  cases v <;> simp only [PatientFollowUpEmailShape, Bool.and_eq_true] at h
    <;> try exact Bool.noConfusion h
  case obj fs =>
  obtain ⟨⟨⟨⟨⟨⟨⟨h1, h2⟩, h3⟩, h4⟩, h5⟩, h6⟩, h7⟩, h8⟩ := h
  obtain ⟨s1, h1v, h1p⟩ := reqStr_spec h1
  obtain ⟨s2, h2v, h2p⟩ := reqStr_spec h2
  obtain ⟨s3, h3v, h3p⟩ := reqStr_spec h3
  obtain ⟨vsI, osI, hvI, hpI, hdeI⟩ := reqArr_spec PatientInstructionSchema_spec h4
  obtain ⟨vsW, hvW, hpW, hdeW⟩ := reqStrArr_spec h5
  obtain ⟨s6, h6v, h6p⟩ := reqStr_spec h6
  obtain ⟨s7, h7v, h7p⟩ := reqStr_spec h7
  obtain ⟨s8, h8v, h8p⟩ := reqStr_spec h8
  refine ⟨.obj [("greeting", .str s1), ("summary_of_findings", .str s2),
      ("treatment_plan", .str s3), ("patient_instructions", .arr osI),
      ("warning_signs", .arr vsW), ("next_steps_timeline", .str s6),
      ("closing", .str s7), ("physician_signature", .str s8)], ?_, ?_⟩
  · show (combine2 (reqField "greeting" parseString fs)
      (combine2 (reqField "summary_of_findings" parseString fs)
      (combine2 (reqField "treatment_plan" parseString fs)
      (combine2 (reqField "patient_instructions" (parseArray PatientInstructionSchema) fs)
      (combine2 (reqField "warning_signs" (parseArray parseString) fs)
      (combine2 (reqField "next_steps_timeline" parseString fs)
      (combine2 (reqField "closing" parseString fs)
                (reqField "physician_signature" parseString fs)))))))).map _ = _
    rw [combine2_ok h1p (combine2_ok h2p (combine2_ok h3p (combine2_ok hpI
        (combine2_ok hpW (combine2_ok h6p (combine2_ok h7p h8p))))))]
    rfl
  · rw [deepEq_obj]
    rw [fieldsIncl_cons_of h1v, fieldsIncl_cons_of h2v, fieldsIncl_cons_of h3v,
        fieldsIncl_cons_of hvI, hdeI, fieldsIncl_cons_of hvW, hdeW,
        fieldsIncl_cons_of h6v, fieldsIncl_cons_of h7v, fieldsIncl_cons_of h8v,
        fieldsIncl_nil]
    simp only [deepEq_str_self, Bool.and_true, Bool.true_and]
    simp only [PatientFollowUpEmailNoExtra]
    have harrI : noExtraArrAt fs "patient_instructions" PatientInstructionNoExtra
        = vsI.all PatientInstructionNoExtra := by
      unfold noExtraArrAt
      rw [hvI]
    rw [harrI]
    have hkeys : keysIncl fs [("greeting", Json.str s1), ("summary_of_findings", Json.str s2),
        ("treatment_plan", Json.str s3), ("patient_instructions", Json.arr osI),
        ("warning_signs", Json.arr vsW), ("next_steps_timeline", Json.str s6),
        ("closing", Json.str s7), ("physician_signature", Json.str s8)]
        = fs.all fun e => keyMem e.1 ["greeting", "summary_of_findings", "treatment_plan",
            "patient_instructions", "warning_signs", "next_steps_timeline", "closing",
            "physician_signature"] := by
      refine keysIncl_eq_all fun e he => ?_
      rw [isSome_fieldAt_cons, isSome_fieldAt_cons, isSome_fieldAt_cons, isSome_fieldAt_cons,
          isSome_fieldAt_cons, isSome_fieldAt_cons, isSome_fieldAt_cons, isSome_fieldAt_cons,
          isSome_fieldAt_nil]
      simp only [keyMem]
    rw [hkeys]
    apply bool_eq_of_iff
    simp only [Bool.and_eq_true]
    tauto

theorem ConsultationSummaryResponseSchema_spec :
    ∀ v, ConsultationSummaryResponseShape v = true →
      ∃ out, ConsultationSummaryResponseSchema v = .ok out
        ∧ deepEq out v = ConsultationSummaryResponseNoExtra v := by
  intro v h
  cases v <;> simp only [ConsultationSummaryResponseShape, Bool.and_eq_true] at h
    <;> try exact Bool.noConfusion h
  case obj fs =>
  obtain ⟨⟨⟨⟨c1, c2⟩, c3⟩, c4⟩, c5⟩ := h
  cases heq1 : fieldAt "clinical_summary" fs with
  | none => rw [heq1] at c1; exact Bool.noConfusion c1
  | some v1 =>
  cases heq2 : fieldAt "next_steps" fs with
  | none => rw [heq2] at c2; exact Bool.noConfusion c2
  | some v2 =>
  cases heq3 : fieldAt "patient_email" fs with
  | none => rw [heq3] at c3; exact Bool.noConfusion c3
  | some v3 =>
  rw [heq1] at c1
  rw [heq2] at c2
  rw [heq3] at c3
  have c1' : ClinicalSummaryShape v1 = true := c1
  have c2' : NextStepsShape v2 = true := c2
  have c3' : PatientFollowUpEmailShape v3 = true := c3
  obtain ⟨out1, hp1, hde1⟩ := ClinicalSummarySchema_spec v1 c1'
  obtain ⟨out2, hp2, hde2⟩ := NextStepsSchema_spec v2 c2'
  obtain ⟨out3, hp3, hde3⟩ := PatientFollowUpEmailSchema_spec v3 c3'
  obtain ⟨s4, h4v, h4p⟩ := reqStr_spec c4
  obtain ⟨o5, ho5, ho5e⟩ := optStr_spec c5
  refine ⟨.obj ([("clinical_summary", out1), ("next_steps", out2), ("patient_email", out3),
      ("generation_timestamp", .str s4)] ++ optEnt "model_version" o5), ?_, ?_⟩
  · show (combine2 (reqField "clinical_summary" ClinicalSummarySchema fs)
      (combine2 (reqField "next_steps" NextStepsSchema fs)
      (combine2 (reqField "patient_email" PatientFollowUpEmailSchema fs)
      (combine2 (reqField "generation_timestamp" parseString fs)
                (optField "model_version" parseString fs))))).map _ = _
    rw [combine2_ok (reqField_ok heq1 hp1) (combine2_ok (reqField_ok heq2 hp2)
        (combine2_ok (reqField_ok heq3 hp3) (combine2_ok h4p ho5)))]
    rfl
  · rw [ho5e, deepEq_obj]
    simp only [List.cons_append, List.nil_append]
    rw [fieldsIncl_cons_of heq1, hde1, fieldsIncl_cons_of heq2, hde2,
        fieldsIncl_cons_of heq3, hde3, fieldsIncl_cons_of h4v,
        fieldsIncl_entOfOpt_str c5]
    simp only [deepEq_str_self, Bool.and_true, Bool.true_and]
    simp only [ConsultationSummaryResponseNoExtra]
    have hobj1 : noExtraObjAt fs "clinical_summary" ClinicalSummaryNoExtra
        = ClinicalSummaryNoExtra v1 := by
      unfold noExtraObjAt
      rw [heq1]
    have hobj2 : noExtraObjAt fs "next_steps" NextStepsNoExtra = NextStepsNoExtra v2 := by
      unfold noExtraObjAt
      rw [heq2]
    have hobj3 : noExtraObjAt fs "patient_email" PatientFollowUpEmailNoExtra
        = PatientFollowUpEmailNoExtra v3 := by
      unfold noExtraObjAt
      rw [heq3]
    rw [hobj1, hobj2, hobj3]
    have hkeys : keysIncl fs (("clinical_summary", out1) :: ("next_steps", out2)
        :: ("patient_email", out3) :: ("generation_timestamp", Json.str s4)
        :: entOfOpt "model_version" fs)
        = fs.all fun e => keyMem e.1 ["clinical_summary", "next_steps", "patient_email",
            "generation_timestamp", "model_version"] := by
      refine keysIncl_eq_all fun e he => ?_
      have hpres := mem_fieldAt_isSome he
      rw [isSome_fieldAt_cons, isSome_fieldAt_cons, isSome_fieldAt_cons, isSome_fieldAt_cons,
          isSome_fieldAt_entOfOpt]
      simp only [keyMem]
      by_cases e1 : "clinical_summary" = e.1
      · simp [e1]
      rw [if_neg e1, if_neg e1]
      by_cases e2 : "next_steps" = e.1
      · simp [e2]
      rw [if_neg e2, if_neg e2]
      by_cases e3 : "patient_email" = e.1
      · simp [e3]
      rw [if_neg e3, if_neg e3]
      by_cases e4 : "generation_timestamp" = e.1
      · simp [e4]
      rw [if_neg e4, if_neg e4]
      by_cases e5 : "model_version" = e.1
      · simp [e5, hpres]
      rw [if_neg e5, if_neg e5]
    rw [hkeys]
    apply bool_eq_of_iff
    simp only [Bool.and_eq_true]
    tauto

/-! ### Field-by-field error decomposition of the object schemas: the
issue list of a failed object parse is the concatenation of the issue
lists of all of its fields, in declaration order — no field masks
another. -/

theorem errs_PhysicalExamFindingSchema (fs : List (String × Json)) :
    errsOf (PhysicalExamFindingSchema (.obj fs))
      = errsOf (reqField "body_part" parseString fs)
        ++ errsOf (reqField "finding" parseString fs) := by
  simp only [PhysicalExamFindingSchema, errsOf_map, errsOf_combine2]

theorem errs_AssessmentSchema (fs : List (String × Json)) :
    errsOf (AssessmentSchema (.obj fs))
      = errsOf (reqField "diagnosis" parseString fs)
        ++ (errsOf (optField "icd_code" parseString fs)
        ++ errsOf (optField "severity" (parseEnum ["mild", "moderate", "severe"]) fs)) := by
  simp only [AssessmentSchema, errsOf_map, errsOf_combine2]

theorem errs_ClinicalSummarySchema (fs : List (String × Json)) :
    errsOf (ClinicalSummarySchema (.obj fs))
      = errsOf (reqField "patient_name" parseString fs)
        ++ (errsOf (reqField "visit_date" parseString fs)
        ++ (errsOf (reqField "chief_complaint" parseString fs)
        ++ (errsOf (reqField "history_of_present_illness" parseString fs)
        ++ (errsOf (optField "vital_signs" parseString fs)
        ++ (errsOf (reqField "physical_exam_findings" (parseArray PhysicalExamFindingSchema) fs)
        ++ (errsOf (reqField "assessments" (parseArray AssessmentSchema) fs)
        ++ errsOf (optField "additional_notes" parseString fs))))))) := by
  simp only [ClinicalSummarySchema, errsOf_map, errsOf_combine2]

theorem errs_PatientInstructionSchema (fs : List (String × Json)) :
    errsOf (PatientInstructionSchema (.obj fs))
      = errsOf (reqField "instruction" parseString fs)
        ++ errsOf (reqField "category" parseString fs) := by
  simp only [PatientInstructionSchema, errsOf_map, errsOf_combine2]

theorem errs_PatientFollowUpEmailSchema (fs : List (String × Json)) :
    errsOf (PatientFollowUpEmailSchema (.obj fs))
      = errsOf (reqField "greeting" parseString fs)
        ++ (errsOf (reqField "summary_of_findings" parseString fs)
        ++ (errsOf (reqField "treatment_plan" parseString fs)
        ++ (errsOf (reqField "patient_instructions" (parseArray PatientInstructionSchema) fs)
        ++ (errsOf (reqField "warning_signs" (parseArray parseString) fs)
        ++ (errsOf (reqField "next_steps_timeline" parseString fs)
        ++ (errsOf (reqField "closing" parseString fs)
        ++ errsOf (reqField "physician_signature" parseString fs))))))) := by
  simp only [PatientFollowUpEmailSchema, errsOf_map, errsOf_combine2]

theorem errs_NextStepActionSchema (fs : List (String × Json)) :
    errsOf (NextStepActionSchema (.obj fs))
      = errsOf (reqField "action_type"
          (parseEnum ["diagnostic", "treatment", "referral", "follow-up", "education"]) fs)
        ++ (errsOf (reqField "description" parseString fs)
        ++ (errsOf (optField "priority" (parseEnum ["high", "medium", "low"]) fs)
        ++ errsOf (optField "timeline" parseString fs))) := by
  simp only [NextStepActionSchema, errsOf_map, errsOf_combine2]

theorem errs_NextStepsSchema (fs : List (String × Json)) :
    errsOf (NextStepsSchema (.obj fs))
      = errsOf (reqField "actions" (parseArray NextStepActionSchema) fs)
        ++ (errsOf (optField "follow_up_appointment" parseString fs)
        ++ errsOf (optField "red_flags" (parseArray parseString) fs)) := by
  simp only [NextStepsSchema, errsOf_map, errsOf_combine2]

theorem errs_ConsultationSummaryResponseSchema (fs : List (String × Json)) :
    errsOf (ConsultationSummaryResponseSchema (.obj fs))
      = errsOf (reqField "clinical_summary" ClinicalSummarySchema fs)
        ++ (errsOf (reqField "next_steps" NextStepsSchema fs)
        ++ (errsOf (reqField "patient_email" PatientFollowUpEmailSchema fs)
        ++ (errsOf (reqField "generation_timestamp" parseString fs)
        ++ errsOf (optField "model_version" parseString fs)))) := by
  simp only [ConsultationSummaryResponseSchema, errsOf_map, errsOf_combine2]

theorem errs_parseList_cons (p : Json → Except (List Issue) Json) (n : Nat) (v : Json)
    (vs : List Json) :
    errsOf (parseList p n (v :: vs))
      = (errsOf (p v)).map (fun i => ⟨.idx n :: i.path, i.code⟩)
        ++ errsOf (parseList p (n + 1) vs) := by
  show errsOf ((combine2 (inIdx n (p v)) (parseList p (n + 1) vs)).map _) = _
  rw [errsOf_map, errsOf_combine2, errsOf_inIdx]

/-! ### Evaluation lemmas for the message handler -/

theorem onMessage_chunk (st : SessionState) (c : String) :
    onMessage st (chunkMsg c) = { st with buffer := st.buffer ++ c } := by
  show { st with buffer := st.buffer ++ jsDisplay (some (.str c)) }
      = { st with buffer := st.buffer ++ c }
  rw [show jsDisplay (some (Json.str c)) = c from by simp [jsDisplay, jsToString]]

theorem onMessage_complete_ok {d q : Json} (st : SessionState)
    (h : ConsultationSummaryResponseSchema d = .ok q) :
    onMessage st (completeMsg d) = { st with structuredOutput := some q, loading := false } := by
  show completeStep st (safeParseData (some d)) = _
  rw [show safeParseData (some d) = ConsultationSummaryResponseSchema d from rfl, h]
  rfl

theorem onMessage_complete_err {d : Json} {is : List Issue} (st : SessionState)
    (h : ConsultationSummaryResponseSchema d = .error is) :
    onMessage st (completeMsg d)
      = { st with lastAlert := some "Failed to validate response", loading := false } := by
  show completeStep st (safeParseData (some d)) = _
  rw [show safeParseData (some d) = ConsultationSummaryResponseSchema d from rfl, h]
  rfl

theorem onMessage_error (st : SessionState) (m : String) :
    onMessage st (errorMsg m)
      = { st with lastAlert := some ("Error: " ++ m), loading := false } := by
  show { st with lastAlert := some ("Error: " ++ jsDisplay (some (.str m))), loading := false }
      = { st with lastAlert := some ("Error: " ++ m), loading := false }
  rw [show jsDisplay (some (Json.str m)) = m from by simp [jsDisplay, jsToString]]

theorem processAll_chunks (cs : List String) :
    ∀ st : SessionState, processAll st (cs.map chunkMsg)
      = { st with buffer := st.buffer ++ concatAll cs } := by
  induction cs with
  | nil =>
      intro st
      show st = { st with buffer := st.buffer ++ "" }
      rw [String.append_empty]
  | cons c cs ih =>
      intro st
      show processAll (onMessage st (chunkMsg c)) (cs.map chunkMsg) = _
      rw [onMessage_chunk, ih]
      show { st with buffer := st.buffer ++ c ++ concatAll cs }
          = { st with buffer := st.buffer ++ (c ++ concatAll cs) }
      rw [String.append_assoc]

/-! ### Fold lemmas for the formatters -/

theorem foldl_append_concatAll {α : Type} (f : α → String) :
    ∀ (xs : List α) (acc : String),
      xs.foldl (fun a x => a ++ f x) acc = acc ++ concatAll (xs.map f) := by
  intro xs
  induction xs with
  | nil =>
      intro acc
      show acc = acc ++ concatAll []
      rw [show concatAll [] = "" from rfl, String.append_empty]
  | cons x xs ih =>
      intro acc
      show xs.foldl _ (acc ++ f x) = _
      rw [ih (acc ++ f x)]
      show acc ++ f x ++ concatAll (xs.map f) = acc ++ (f x ++ concatAll (xs.map f))
      rw [String.append_assoc]

theorem parseEnum_not_mem {allowed : List String} {s : String}
    (h : allowed.contains s = false) :
    parseEnum allowed (.str s) = .error [⟨[], "invalid_enum_value"⟩] := by
  have hmem : s ∉ allowed := by simpa using h
  simp [parseEnum, hmem]

theorem onMessage_json (st : SessionState) (j : Json) :
    onMessage st (.json j)
      = (match envelopeTag j with
        | some "chunk" => { st with buffer := st.buffer ++ jsDisplay (getField j "content") }
        | some "complete" => completeStep st (safeParseData (getField j "data"))
        | some "error" =>
            { st with lastAlert := some ("Error: " ++ jsDisplay (getField j "message")),
                      loading := false }
        | _ => st) := rfl

/-- C1: for every raw payload of the exact data-model shape (all
required fields present with the right primitive types, enumerated
fields drawn from their closed lower-case sets, declared arrays present,
no unrecognized keys), delivered in a `complete` envelope, validation
succeeds and the session resolves to the Done configuration — the
validated payload is stored, loading stops, and the stored payload is
deep-equal to the input payload. -/
theorem complete_valid_payload_resolves_done (st : SessionState) (d : Json)
    (h : ConsultationPayloadExactShape d = true) :
    ∃ q, ConsultationSummaryResponseSchema d = .ok q ∧ deepEq q d = true
      ∧ onMessage st (completeMsg d)
        = { st with structuredOutput := some q, loading := false } := by
  unfold ConsultationPayloadExactShape at h
  rw [Bool.and_eq_true] at h
  obtain ⟨hs, hne⟩ := h
  obtain ⟨q, hp, hde⟩ := ConsultationSummaryResponseSchema_spec d hs
  exact ⟨q, hp, by rw [hde, hne], onMessage_complete_ok st hp⟩

/-- Witness for C1 at the valid fixture payload of the test suite. -/
theorem complete_valid_payload_resolves_done_witness :
    ConsultationPayloadExactShape demoPayload = true
    ∧ ∃ q, ConsultationSummaryResponseSchema demoPayload = .ok q ∧ deepEq q demoPayload = true
      ∧ onMessage streamingState (completeMsg demoPayload)
        = { streamingState with structuredOutput := some q, loading := false } :=
  ⟨by decide, complete_valid_payload_resolves_done streamingState demoPayload (by decide)⟩

/-- C2: validation is total and field-by-field.  The issue list of every
object schema is the concatenation of the issue lists of all of its
fields in declaration order, so no violation masks another; array
elements contribute index-rooted issues element-wise; a missing required
field contributes exactly one issue; an out-of-set enumerated value
contributes exactly one issue; and on the failing test fixture (all
three sub-objects empty) the reported failure lists every one of the
fifteen missing required fields. -/
theorem validation_collects_every_field_violation :
    (∀ fs, errsOf (ConsultationSummaryResponseSchema (.obj fs))
      = errsOf (reqField "clinical_summary" ClinicalSummarySchema fs)
        ++ (errsOf (reqField "next_steps" NextStepsSchema fs)
        ++ (errsOf (reqField "patient_email" PatientFollowUpEmailSchema fs)
        ++ (errsOf (reqField "generation_timestamp" parseString fs)
        ++ errsOf (optField "model_version" parseString fs)))))
    ∧ (∀ fs, errsOf (ClinicalSummarySchema (.obj fs))
      = errsOf (reqField "patient_name" parseString fs)
        ++ (errsOf (reqField "visit_date" parseString fs)
        ++ (errsOf (reqField "chief_complaint" parseString fs)
        ++ (errsOf (reqField "history_of_present_illness" parseString fs)
        ++ (errsOf (optField "vital_signs" parseString fs)
        ++ (errsOf (reqField "physical_exam_findings" (parseArray PhysicalExamFindingSchema) fs)
        ++ (errsOf (reqField "assessments" (parseArray AssessmentSchema) fs)
        ++ errsOf (optField "additional_notes" parseString fs))))))))
    ∧ (∀ fs, errsOf (NextStepsSchema (.obj fs))
      = errsOf (reqField "actions" (parseArray NextStepActionSchema) fs)
        ++ (errsOf (optField "follow_up_appointment" parseString fs)
        ++ errsOf (optField "red_flags" (parseArray parseString) fs)))
    ∧ (∀ fs, errsOf (PatientFollowUpEmailSchema (.obj fs))
      = errsOf (reqField "greeting" parseString fs)
        ++ (errsOf (reqField "summary_of_findings" parseString fs)
        ++ (errsOf (reqField "treatment_plan" parseString fs)
        ++ (errsOf (reqField "patient_instructions" (parseArray PatientInstructionSchema) fs)
        ++ (errsOf (reqField "warning_signs" (parseArray parseString) fs)
        ++ (errsOf (reqField "next_steps_timeline" parseString fs)
        ++ (errsOf (reqField "closing" parseString fs)
        ++ errsOf (reqField "physician_signature" parseString fs))))))))
    ∧ (∀ fs, errsOf (AssessmentSchema (.obj fs))
      = errsOf (reqField "diagnosis" parseString fs)
        ++ (errsOf (optField "icd_code" parseString fs)
        ++ errsOf (optField "severity" (parseEnum ["mild", "moderate", "severe"]) fs)))
    ∧ (∀ fs, errsOf (NextStepActionSchema (.obj fs))
      = errsOf (reqField "action_type"
          (parseEnum ["diagnostic", "treatment", "referral", "follow-up", "education"]) fs)
        ++ (errsOf (reqField "description" parseString fs)
        ++ (errsOf (optField "priority" (parseEnum ["high", "medium", "low"]) fs)
        ++ errsOf (optField "timeline" parseString fs))))
    ∧ (∀ fs, errsOf (PhysicalExamFindingSchema (.obj fs))
      = errsOf (reqField "body_part" parseString fs)
        ++ errsOf (reqField "finding" parseString fs))
    ∧ (∀ fs, errsOf (PatientInstructionSchema (.obj fs))
      = errsOf (reqField "instruction" parseString fs)
        ++ errsOf (reqField "category" parseString fs))
    ∧ (∀ (p : Json → Except (List Issue) Json) (n : Nat) (v : Json) (vs : List Json),
        errsOf (parseList p n (v :: vs))
          = (errsOf (p v)).map (fun i => ⟨.idx n :: i.path, i.code⟩)
            ++ errsOf (parseList p (n + 1) vs))
    ∧ (∀ (k : String) (p : Json → Except (List Issue) Json) (fs : List (String × Json)),
        fieldAt k fs = none → errsOf (reqField k p fs) = [⟨[.key k], "required"⟩])
    ∧ (∀ (allowed : List String) (s : String), allowed.contains s = false →
        errsOf (parseEnum allowed (.str s)) = [⟨[], "invalid_enum_value"⟩])
    ∧ errsOf (ConsultationSummaryResponseSchema badPayload)
      = [⟨[.key "clinical_summary", .key "patient_name"], "required"⟩,
         ⟨[.key "clinical_summary", .key "visit_date"], "required"⟩,
         ⟨[.key "clinical_summary", .key "chief_complaint"], "required"⟩,
         ⟨[.key "clinical_summary", .key "history_of_present_illness"], "required"⟩,
         ⟨[.key "clinical_summary", .key "physical_exam_findings"], "required"⟩,
         ⟨[.key "clinical_summary", .key "assessments"], "required"⟩,
         ⟨[.key "next_steps", .key "actions"], "required"⟩,
         ⟨[.key "patient_email", .key "greeting"], "required"⟩,
         ⟨[.key "patient_email", .key "summary_of_findings"], "required"⟩,
         ⟨[.key "patient_email", .key "treatment_plan"], "required"⟩,
         ⟨[.key "patient_email", .key "patient_instructions"], "required"⟩,
         ⟨[.key "patient_email", .key "warning_signs"], "required"⟩,
         ⟨[.key "patient_email", .key "next_steps_timeline"], "required"⟩,
         ⟨[.key "patient_email", .key "closing"], "required"⟩,
         ⟨[.key "patient_email", .key "physician_signature"], "required"⟩] := by
  refine ⟨errs_ConsultationSummaryResponseSchema, errs_ClinicalSummarySchema,
      errs_NextStepsSchema, errs_PatientFollowUpEmailSchema, errs_AssessmentSchema,
      errs_NextStepActionSchema, errs_PhysicalExamFindingSchema, errs_PatientInstructionSchema,
      errs_parseList_cons, ?_, ?_, by rfl⟩
  · intro k p fs h
    rw [reqField_none h]
    rfl
  · intro allowed s h
    rw [parseEnum_not_mem h]
    rfl

/-- Witness for C2 at a concrete missing field: the empty object is
missing `patient_name`, and the validator reports exactly one issue for
it. -/
theorem validation_collects_every_field_violation_witness :
    fieldAt "patient_name" ([] : List (String × Json)) = none
    ∧ errsOf (reqField "patient_name" parseString [])
      = [⟨[.key "patient_name"], "required"⟩] :=
  ⟨rfl, validation_collects_every_field_violation.2.2.2.2.2.2.2.2.2.1
    "patient_name" parseString [] rfl⟩

/-- C3: an enumerated field holding a value outside its closed
lower-case set — severity, action type or priority — always fails
validation; the comparison is an exact, case-sensitive string match, so
the differently-cased `"Mild"` is rejected while `"mild"` is accepted
in an otherwise identical assessment. -/
theorem enum_fields_case_sensitive :
    (∀ (fs : List (String × Json)) (s : String),
      fieldAt "severity" fs = some (.str s) →
      ["mild", "moderate", "severe"].contains s = false →
      ∃ is, AssessmentSchema (.obj fs) = .error is)
    ∧ (∀ (fs : List (String × Json)) (s : String),
      fieldAt "action_type" fs = some (.str s) →
      ["diagnostic", "treatment", "referral", "follow-up", "education"].contains s = false →
      ∃ is, NextStepActionSchema (.obj fs) = .error is)
    ∧ (∀ (fs : List (String × Json)) (s : String),
      fieldAt "priority" fs = some (.str s) →
      ["high", "medium", "low"].contains s = false →
      ∃ is, NextStepActionSchema (.obj fs) = .error is)
    ∧ (∃ is, AssessmentSchema
        (.obj [("diagnosis", .str "Migraine"), ("severity", .str "Mild")]) = .error is)
    ∧ AssessmentSchema (.obj [("diagnosis", .str "Migraine"), ("severity", .str "mild")])
      = .ok (.obj [("diagnosis", .str "Migraine"), ("severity", .str "mild")]) := by
  refine ⟨?_, ?_, ?_, ⟨[⟨[.key "severity"], "invalid_enum_value"⟩], by rfl⟩, by rfl⟩
  · intro fs s hv h
    have hopt : errsOf (optField "severity" (parseEnum ["mild", "moderate", "severe"]) fs)
        = [⟨[.key "severity"], "invalid_enum_value"⟩] := by
      unfold optField
      rw [hv]
      show errsOf (Except.map some
        (inKey "severity" (parseEnum ["mild", "moderate", "severe"] (.str s)))) = _
      rw [parseEnum_not_mem h]
      rfl
    have hne : errsOf (AssessmentSchema (.obj fs)) ≠ [] := by
      rw [errs_AssessmentSchema, hopt]
      simp
    exact ⟨_, error_of_errs_ne_nil hne⟩
  · intro fs s hv h
    have hreq : errsOf (reqField "action_type"
        (parseEnum ["diagnostic", "treatment", "referral", "follow-up", "education"]) fs)
        = [⟨[.key "action_type"], "invalid_enum_value"⟩] := by
      unfold reqField
      rw [hv]
      show errsOf (inKey "action_type"
        (parseEnum ["diagnostic", "treatment", "referral", "follow-up", "education"] (.str s))) = _
      rw [parseEnum_not_mem h]
      rfl
    have hne : errsOf (NextStepActionSchema (.obj fs)) ≠ [] := by
      rw [errs_NextStepActionSchema, hreq]
      simp
    exact ⟨_, error_of_errs_ne_nil hne⟩
  · intro fs s hv h
    have hopt : errsOf (optField "priority" (parseEnum ["high", "medium", "low"]) fs)
        = [⟨[.key "priority"], "invalid_enum_value"⟩] := by
      unfold optField
      rw [hv]
      show errsOf (Except.map some
        (inKey "priority" (parseEnum ["high", "medium", "low"] (.str s)))) = _
      rw [parseEnum_not_mem h]
      rfl
    have hne : errsOf (NextStepActionSchema (.obj fs)) ≠ [] := by
      rw [errs_NextStepActionSchema, hopt]
      simp
    exact ⟨_, error_of_errs_ne_nil hne⟩

/-- Witness for C3 at the case-variant fixture of the test suite. -/
theorem enum_fields_case_sensitive_witness :
    fieldAt "severity" [("diagnosis", Json.str "Migraine"), ("severity", Json.str "Mild")]
      = some (.str "Mild")
    ∧ ["mild", "moderate", "severe"].contains "Mild" = false
    ∧ ∃ is, AssessmentSchema
        (.obj [("diagnosis", .str "Migraine"), ("severity", .str "Mild")]) = .error is :=
  ⟨rfl, rfl, enum_fields_case_sensitive.1
    [("diagnosis", Json.str "Migraine"), ("severity", Json.str "Mild")] "Mild" rfl rfl⟩

/-- C4: a message whose data is not valid JSON, or whose decoded `type`
discriminant is outside the set chunk/complete/error, never raises and
leaves the whole session state — buffer, structured output, loading
flag, output text and alert — unchanged. -/
theorem unknown_or_malformed_message_ignored :
    (∀ (st : SessionState) (raw : String), onMessage st (.malformed raw) = st)
    ∧ (∀ (st : SessionState) (j : Json),
        envelopeTag j ≠ some "chunk" → envelopeTag j ≠ some "complete" →
        envelopeTag j ≠ some "error" → onMessage st (.json j) = st) := by
  refine ⟨fun st raw => rfl, fun st j h1 h2 h3 => ?_⟩
  rw [onMessage_json]
  cases htag : envelopeTag j with
  | none => rfl
  | some s =>
      rw [htag] at h1 h2 h3
      split <;> simp_all

/-- Witness for C4 at an envelope with the unknown type `ping`. -/
theorem unknown_or_malformed_message_ignored_witness :
    envelopeTag (.obj [("type", .str "ping")]) ≠ some "chunk"
    ∧ envelopeTag (.obj [("type", .str "ping")]) ≠ some "complete"
    ∧ envelopeTag (.obj [("type", .str "ping")]) ≠ some "error"
    ∧ onMessage streamingState (.json (.obj [("type", .str "ping")])) = streamingState :=
  ⟨by decide, by decide, by decide,
   unknown_or_malformed_message_ignored.2 streamingState (.obj [("type", .str "ping")])
     (by decide) (by decide) (by decide)⟩

/-- C5: after any finite sequence of `chunk` envelopes the buffer is the
initial buffer followed by the concatenation of the chunk contents in
arrival order (all other state untouched); hence two chunkings of the
same total text yield identical final states, independent of the chunk
boundaries. -/
theorem chunk_buffer_is_concatenation :
    (∀ (st : SessionState) (cs : List String),
      processAll st (cs.map chunkMsg) = { st with buffer := st.buffer ++ concatAll cs })
    ∧ (∀ (st : SessionState) (cs ds : List String), concatAll cs = concatAll ds →
      processAll st (cs.map chunkMsg) = processAll st (ds.map chunkMsg)) := by
  refine ⟨fun st cs => processAll_chunks cs st, fun st cs ds h => ?_⟩
  rw [processAll_chunks cs st, processAll_chunks ds st, h]

/-- Witness for C5: the two chunkings of `"Hello"` from the
specification land in the same state. -/
theorem chunk_buffer_is_concatenation_witness :
    concatAll ["Hel", "lo"] = concatAll ["H", "ello"]
    ∧ processAll streamingState (["Hel", "lo"].map chunkMsg)
      = processAll streamingState (["H", "ello"].map chunkMsg) :=
  ⟨rfl, chunk_buffer_is_concatenation.2 streamingState ["Hel", "lo"] ["H", "ello"] rfl⟩

/-- C6: an `error` envelope always drives the session to the
Failed(RemoteError) configuration — loading stops — and the surfaced
alert is the fixed UI label `Error: ` followed by the remote-supplied
message exactly as it arrived: the message itself is embedded verbatim,
never transformed, and no other state is touched. -/
theorem error_envelope_fails_with_verbatim_message :
    ∀ (st : SessionState) (m : String),
      onMessage st (errorMsg m)
        = { st with lastAlert := some ("Error: " ++ m), loading := false } :=
  fun st m => onMessage_error st m

/-- C7: when the bearer credential is absent at session start, the
session resolves immediately to the Failed(Unauthenticated)
configuration — the output is the authentication notice and loading is
stopped — and the push connection is never opened. -/
theorem missing_credential_fails_without_connecting :
    ∀ st : SessionState,
      startSession none st
        = ({ st with output := "Authentication required", loading := false },
           .unauthenticated) :=
  fun _ => rfl

/-- C8: `formatClinicalSummary` is exactly the fixed header followed by
the optional vital-signs block, the physical-examination block (present
only when the findings sequence is non-empty, one `- {body_part}:
{finding}` line per finding), the always-present assessment block (one
1-indexed `{n}. {diagnosis}` line per assessment with the optional
ICD-10 suffix and then the optional severity suffix, in that fixed
order), and the optional additional-notes block. -/
theorem formatClinicalSummary_block_structure :
    ∀ s : ClinicalSummary,
      formatClinicalSummary s
        = clinicalHeaderSpec s ++ vitalSignsBlockSpec s
          ++ examBlockSpec s.physical_exam_findings
          ++ assessmentBlockSpec s.assessments
          ++ additionalNotesBlockSpec s := by
  intro s
  have hvit : ∀ acc : String,
      (if strTruthy s.vital_signs = true then
          acc ++ "\nVital Signs:\n" ++ s.vital_signs.getD "" ++ "\n"
        else acc)
        = acc ++ vitalSignsBlockSpec s := by
    intro acc
    unfold vitalSignsBlockSpec
    by_cases h : strTruthy s.vital_signs = true
    · rw [if_pos h, if_pos h]
      simp only [String.append_assoc]
    · rw [if_neg h, if_neg h, String.append_empty]
  have hexam : ∀ acc : String,
      (if s.physical_exam_findings.length > 0 then
          s.physical_exam_findings.foldl
            (fun a finding => a ++ "- " ++ finding.body_part ++ ": " ++ finding.finding ++ "\n")
            (acc ++ "\nPhysical Examination:\n")
        else acc)
        = acc ++ examBlockSpec s.physical_exam_findings := by
    intro acc
    unfold examBlockSpec
    cases hpe : s.physical_exam_findings with
    | nil => simp [String.append_empty]
    | cons f fsR =>
        rw [if_pos (by simp), if_neg (by simp)]
        have hbody : (fun (a : String) (finding : PhysicalExamFinding) =>
            a ++ "- " ++ finding.body_part ++ ": " ++ finding.finding ++ "\n")
            = fun a finding =>
                a ++ ("- " ++ finding.body_part ++ ": " ++ finding.finding ++ "\n") := by
          funext a finding
          simp only [String.append_assoc]
        rw [hbody, foldl_append_concatAll]
        simp only [String.append_assoc]
  have hassess : ∀ acc : String,
      s.assessments.enum.foldl (fun a pr =>
          a ++ toString (pr.1 + 1) ++ ". " ++ pr.2.diagnosis
            ++ (if strTruthy pr.2.icd_code then " (ICD-10: " ++ pr.2.icd_code.getD "" ++ ")" else "")
            ++ (if strTruthy pr.2.severity then " - Severity: " ++ pr.2.severity.getD "" else "")
            ++ "\n") (acc ++ "\nAssessment:\n")
        = acc ++ assessmentBlockSpec s.assessments := by
    intro acc
    have hbody : (fun (a : String) (pr : Nat × Assessment) =>
        a ++ toString (pr.1 + 1) ++ ". " ++ pr.2.diagnosis
          ++ (if strTruthy pr.2.icd_code then " (ICD-10: " ++ pr.2.icd_code.getD "" ++ ")" else "")
          ++ (if strTruthy pr.2.severity then " - Severity: " ++ pr.2.severity.getD "" else "")
          ++ "\n")
        = fun a pr => a ++ assessmentLineSpec (pr.1 + 1) pr.2 := by
      funext a pr
      unfold assessmentLineSpec
      simp only [String.append_assoc]
    rw [hbody, foldl_append_concatAll]
    unfold assessmentBlockSpec
    simp only [String.append_assoc]
  have hnotes : ∀ acc : String,
      (if strTruthy s.additional_notes = true then
          acc ++ "\nAdditional Notes:\n" ++ s.additional_notes.getD "" ++ "\n"
        else acc)
        = acc ++ additionalNotesBlockSpec s := by
    intro acc
    unfold additionalNotesBlockSpec
    by_cases h : strTruthy s.additional_notes = true
    · rw [if_pos h, if_pos h]
      simp only [String.append_assoc]
    · rw [if_neg h, if_neg h, String.append_empty]
  simp only [formatClinicalSummary]
  rw [hnotes, hassess, hexam, hvit]
  rfl

/-- C9: `formatNextSteps` is exactly the action list (one 1-indexed
`{n}. [{ACTION_TYPE_UPPERCASE}] {description}` line per action with the
optional timeline suffix and then the optional priority suffix, in that
order), followed by the follow-up-appointment line only when that field
is present, followed by the red-flags block (header plus one bulleted
line per flag) only when the red-flags sequence is present and
non-empty. -/
theorem formatNextSteps_block_structure :
    ∀ ns : NextSteps,
      formatNextSteps ns
        = actionsBlockSpec ns.actions ++ followUpLineSpec ns ++ redFlagsBlockSpec ns := by
  intro ns
  have hacts : ns.actions.enum.foldl (fun a pr =>
      a ++ toString (pr.1 + 1) ++ ". [" ++ pr.2.action_type.toUpper ++ "] " ++ pr.2.description
        ++ (if strTruthy pr.2.timeline then " (Timeline: " ++ pr.2.timeline.getD "" ++ ")" else "")
        ++ (if strTruthy pr.2.priority then " [Priority: " ++ pr.2.priority.getD "" ++ "]" else "")
        ++ "\n") ""
      = "" ++ actionsBlockSpec ns.actions := by
    have hbody : (fun (a : String) (pr : Nat × NextStepAction) =>
        a ++ toString (pr.1 + 1) ++ ". [" ++ pr.2.action_type.toUpper ++ "] " ++ pr.2.description
          ++ (if strTruthy pr.2.timeline then " (Timeline: " ++ pr.2.timeline.getD "" ++ ")" else "")
          ++ (if strTruthy pr.2.priority then " [Priority: " ++ pr.2.priority.getD "" ++ "]" else "")
          ++ "\n")
        = fun a pr => a ++ actionLineSpec (pr.1 + 1) pr.2 := by
      funext a pr
      unfold actionLineSpec
      simp only [String.append_assoc]
    rw [hbody, foldl_append_concatAll]
    rfl
  have hfua : ∀ acc : String,
      (if strTruthy ns.follow_up_appointment = true then
          acc ++ "\nFollow-up Appointment: " ++ ns.follow_up_appointment.getD "" ++ "\n"
        else acc)
        = acc ++ followUpLineSpec ns := by
    intro acc
    unfold followUpLineSpec
    by_cases h : strTruthy ns.follow_up_appointment = true
    · rw [if_pos h, if_pos h]
      simp only [String.append_assoc]
    · rw [if_neg h, if_neg h, String.append_empty]
  have hred : ∀ acc : String,
      (if redFlagsTruthy ns.red_flags = true then
          (ns.red_flags.getD []).foldl (fun acc flag => acc ++ "- " ++ flag ++ "\n")
            (acc ++ "\n⚠️ Red Flags - Call immediately if:\n")
        else acc)
        = acc ++ redFlagsBlockSpec ns := by
    intro acc
    unfold redFlagsBlockSpec
    cases hrf : ns.red_flags with
    | none => simp [redFlagsTruthy, redFlagsBlockSpecOf, String.append_empty]
    | some flags =>
        cases flags with
        | nil => simp [redFlagsTruthy, redFlagsBlockSpecOf, String.append_empty]
        | cons f fsR =>
            have hrbody : (fun (a : String) (flag : String) => a ++ "- " ++ flag ++ "\n")
                = fun a flag => a ++ ("- " ++ flag ++ "\n") := by
              funext a flag
              simp only [String.append_assoc]
            rw [show redFlagsTruthy (some (f :: fsR)) = true from by simp [redFlagsTruthy]]
            rw [if_pos rfl]
            rw [show redFlagsBlockSpecOf (some (f :: fsR))
                = "\n⚠️ Red Flags - Call immediately if:\n"
                  ++ concatAll ((f :: fsR).map fun flag => "- " ++ flag ++ "\n") from by
              simp [redFlagsBlockSpecOf]]
            rw [show (some (f :: fsR)).getD [] = f :: fsR from rfl]
            rw [hrbody, foldl_append_concatAll, String.append_assoc]
  simp only [formatNextSteps]
  rw [hred, hfua, hacts, String.empty_append]

/-- C10: a payload that satisfies every typing requirement of the data
model but carries at least one unrecognized key still validates
successfully, and the validated result strips those keys, so it is not
deep-equal to the input. -/
theorem extra_keys_stripped_not_deep_equal (d : Json)
    (h1 : ConsultationSummaryResponseShape d = true)
    (h2 : ConsultationSummaryResponseNoExtra d = false) :
    ∃ q, ConsultationSummaryResponseSchema d = .ok q ∧ deepEq q d = false := by
  obtain ⟨q, hp, hde⟩ := ConsultationSummaryResponseSchema_spec d h1
  exact ⟨q, hp, by rw [hde, h2]⟩

/-- Witness for C10 at the valid fixture payload extended with one
unrecognized top-level key. -/
theorem extra_keys_stripped_not_deep_equal_witness :
    ConsultationSummaryResponseShape demoPayloadExtra = true
    ∧ ConsultationSummaryResponseNoExtra demoPayloadExtra = false
    ∧ ∃ q, ConsultationSummaryResponseSchema demoPayloadExtra = .ok q
        ∧ deepEq q demoPayloadExtra = false :=
  ⟨by decide, by decide,
   extra_keys_stripped_not_deep_equal demoPayloadExtra (by decide) (by decide)⟩
